import Mathlib

/-!
# CRUDL subscription service: month codec, validator, service and summary query

A shallow embedding of the Go sources under `internal/usecase`,
`internal/repository/postgres`, `internal/domain` and of `handleError` in
`internal/transport/http`, together with models of the library functions they
call (`time`, `strings`, `errors`, `github.com/google/uuid`).

Conventions of the embedding:

* a Go `string` is its sequence of bytes (`GoString`); `len` is the number of
  bytes;
* a Go `int` / `int64` is an `Int`: the service does no arithmetic, the years
  that reach `time.Date` have four digits, and the SQL `SUM` of the summary is
  an error when it is beyond the range of the `int64` it is scanned into;
* a Go result `(T, error)` is the pair of the value and an optional error; a
  call through the interface `SubscriptionRepository`, and a call to
  `uuid.Parse`, answer with a value or with an error, since their callers read
  no value next to an error;
* the repository is an oracle, and a method of the service returns, with its
  result, the list of the calls it made and of the lines it logged;
* the database compares the dates of the summary query as civil dates (columns
  of type `date`, session in UTC), orders rows created at the same instant as
  the table holds them, and refuses a negative `LIMIT` or `OFFSET`;
* an error wraps at most one error, as every error that the service and the
  repository build.
-/

set_option autoImplicit false

/-- The bytes of a Go string. -/
abbrev GoString := List Nat

/-- Bytes of a string literal (UTF-8). -/
def str (s : String) : GoString :=
  (s.data.flatMap String.utf8EncodeChar).map UInt8.toNat

/-! ## Package `time` (library model) -/

namespace time

/-- Location of a `Time`: UTC or a zone at a fixed offset (seconds east). -/
inductive Location where
  | UTC
  | Fixed (name : String) (offset : Int)
deriving DecidableEq, Repr

/-- An instant: seconds and nanoseconds since January 1, year 1, 00:00:00 UTC,
with the location used to present it. -/
structure Time where
  sec : Int
  nsec : Int
  loc : Location
deriving DecidableEq, Repr

/-- The zero value `time.Time{}`. -/
def Time.zero : Time := { sec := 0, nsec := 0, loc := Location.UTC }

def secondsPerMinute : Int := 60
def secondsPerHour : Int := 60 * secondsPerMinute
def secondsPerDay : Int := 24 * secondsPerHour
def daysPer400Years : Int := 365 * 400 + 97
def daysPer100Years : Int := 365 * 100 + 24
def daysPer4Years : Int := 365 * 4 + 1

/-- Year of the absolute epoch; `absoluteZeroYear - 1` is a multiple of 400. -/
def absoluteZeroYear : Int := -292277022399

/-- Offset between the absolute epoch and January 1, year 1 (in seconds). -/
def absoluteToInternal : Int := -9223371966579724800

/-- Table `daysBefore`: days in a non-leap year before month `m + 1` begins. -/
def daysBefore : List Int :=
  [0, 31, 59, 90, 120, 151, 181, 212, 243, 273, 304, 334, 365]

def isLeap (year : Int) : Bool :=
  year % 4 == 0 && (year % 100 != 0 || year % 400 == 0)

/-- Function `norm`: `(hi, lo)` with `lo` brought into `[0, base)`. -/
def norm (hi lo base : Int) : Int × Int :=
  let (hi, lo) :=
    if lo < 0 then
      let n := (-lo - 1) / base + 1
      (hi - n, lo + n * base)
    else (hi, lo)
  if lo ≥ base then
    let n := lo / base
    (hi + n, lo - n * base)
  else (hi, lo)

/-- Days from the absolute epoch to January 1 of `year`. -/
def daysSinceEpoch (year : Int) : Int :=
  let y := year - absoluteZeroYear
  let n := y / 400
  let y := y - 400 * n
  let d := daysPer400Years * n
  let n := y / 100
  let y := y - 100 * n
  let d := d + daysPer100Years * n
  let n := y / 4
  let y := y - 4 * n
  let d := d + daysPer4Years * n
  d + 365 * y

/-- Function `time.Date`: the instant of the given civil date and time in `loc`,
after normalising out-of-range fields. -/
def Date (year month day hour min sec nsec : Int) (loc : Location) : Time :=
  let m := month - 1
  let (year, m) := norm year m 12
  let month := m + 1
  let (sec, nsec) := norm sec nsec 1000000000
  let (min, sec) := norm min sec 60
  let (hour, min) := norm hour min 60
  let (day, hour) := norm day hour 24
  let d := daysSinceEpoch year
  let d := d + daysBefore.getD (month - 1).toNat 0
  let d := if isLeap year && month ≥ 3 then d + 1 else d
  let d := d + (day - 1)
  let abs := d * secondsPerDay
  let abs := abs + (hour * secondsPerHour + min * secondsPerMinute + sec)
  let offset := match loc with
    | Location.UTC => 0
    | Location.Fixed _ o => o
  { sec := abs + absoluteToInternal - offset, nsec := nsec, loc := loc }

/-- Method `Time.abs`: seconds since the absolute epoch, shifted to the
location of `t`. -/
def Time.abs (t : Time) : Int :=
  let offset := match t.loc with
    | Location.UTC => 0
    | Location.Fixed _ o => o
  t.sec + offset - absoluteToInternal

/-- Function `absDate`: year, month (1..12), day of month and day of year
(from 0) of an absolute time. -/
def absDate (abs : Int) : Int × Int × Int × Int :=
  let d := abs / secondsPerDay
  let n := d / daysPer400Years
  let y := 400 * n
  let d := d - daysPer400Years * n
  let n := d / daysPer100Years
  let n := n - n / 4
  let y := y + 100 * n
  let d := d - daysPer100Years * n
  let n := d / daysPer4Years
  let y := y + 4 * n
  let d := d - daysPer4Years * n
  let n := d / 365
  let n := n - n / 4
  let y := y + n
  let d := d - 365 * n
  let year := y + absoluteZeroYear
  let yday := d
  let day := yday
  if isLeap year && day == 31 + 29 - 1 then
    (year, 2, 29, yday)
  else
    let day := if isLeap year && day > 31 + 29 - 1 then day - 1 else day
    let month := day / 31
    let e := daysBefore.getD (month + 1).toNat 0
    let (month, b) :=
      if day ≥ e then (month + 1, e) else (month, daysBefore.getD month.toNat 0)
    (year, month + 1, day - b + 1, yday)

def Time.Year (t : Time) : Int := (absDate t.abs).1
def Time.Month (t : Time) : Int := (absDate t.abs).2.1
def Time.Day (t : Time) : Int := (absDate t.abs).2.2.1
def Time.Hour (t : Time) : Int := t.abs % secondsPerDay / secondsPerHour
def Time.Minute (t : Time) : Int := t.abs % secondsPerHour / secondsPerMinute
def Time.Second (t : Time) : Int := t.abs % secondsPerMinute
def Time.Nanosecond (t : Time) : Int := t.nsec

/-- Method `Time.IsZero`: the instant January 1, year 1, 00:00:00 UTC. -/
def Time.IsZero (t : Time) : Bool := t.sec == 0 && t.nsec == 0

/-- Method `Time.Before`: comparison of instants. -/
def Time.Before (t u : Time) : Bool :=
  t.sec < u.sec || (t.sec == u.sec && t.nsec < u.nsec)

/-- Method `Time.Equal`: same instant, whatever the location. -/
def Time.Equal (t u : Time) : Bool := t.sec == u.sec && t.nsec == u.nsec

/-- Elements of a layout, as `nextStdChunk` cuts it: literal text, or one of
the two standard fields that `MonthLayout` uses. -/
inductive Chunk where
  | lit (text : GoString)
  | stdZeroMonth
  | stdLongYear
deriving DecidableEq, Repr

def isDigit (s : GoString) (i : Nat) : Bool :=
  match s.get? i with
  | some c => 48 ≤ c && c ≤ 57
  | none => false

/-- Function `getnum`: a one- or two-digit number at the head of `s`; with
`fixed`, exactly two digits. -/
def getnum (s : GoString) (fixed : Bool) : Option (Int × GoString) :=
  if !isDigit s 0 then none
  else if !isDigit s 1 then
    if fixed then none
    else some (((s.getD 0 0 : Nat) : Int) - 48, s.drop 1)
  else
    some ((((s.getD 0 0 : Nat) : Int) - 48) * 10 + (((s.getD 1 0 : Nat) : Int) - 48),
      s.drop 2)

/-- Function `leadingInt`: the leading decimal digits of `s` as a number, and
the rest. -/
def leadingInt : GoString → Int → Int × GoString
  | [], x => (x, [])
  | c :: rest, x =>
    if c < 48 || c > 57 then (x, c :: rest)
    else leadingInt rest (x * 10 + ((c : Int) - 48))

/-- Function `atoi`: a decimal number with an optional sign, nothing after. -/
def atoi (s : GoString) : Option Int :=
  let signed := s.head? == some 45 || s.head? == some 43
  let neg := signed && s.head? == some 45
  let s := if signed then s.drop 1 else s
  match leadingInt s 0 with
  | (q, []) => some (if neg then -q else q)
  | (_, _ :: _) => none

/-- Function `cutspace`: drops the leading spaces. -/
def cutspace (s : GoString) : GoString := s.dropWhile (· = 32)

/-- Loop of `skip`; every turn shortens `pfx`, so `pfx.length` turns suffice. -/
def skipLoop : Nat → GoString → GoString → Option GoString
  | _, value, [] => some value
  | 0, _, _ :: _ => none
  | fuel + 1, value, p :: ps =>
    if p = 32 then
      match value with
      | v :: _ =>
        if v ≠ 32 then none
        else skipLoop fuel (cutspace value) (cutspace (p :: ps))
      | [] => skipLoop fuel (cutspace value) (cutspace (p :: ps))
    else
      match value with
      | v :: vs => if v ≠ p then none else skipLoop fuel vs ps
      | [] => none

/-- Function `skip`: removes the literal `pfx` from the head of `value`; a
space in `pfx` stands for any run of spaces. -/
def skip (value pfx : GoString) : Option GoString :=
  skipLoop pfx.length value pfx

/-- Message part of a `ParseError`. -/
inductive ParseMessage where
  | none
  | extraText (value : GoString)
  | monthOutOfRange
  | dayOutOfRange
deriving DecidableEq, Repr

/-- Type `ParseError`: what `Parse` reports. -/
structure ParseError where
  Layout : List Chunk
  Value : GoString
  LayoutElem : Option Chunk
  ValueElem : GoString
  Message : ParseMessage
deriving DecidableEq, Repr

/-- Function `daysIn`: the number of days of a month. -/
def daysIn (m year : Int) : Int :=
  if m == 2 && isLeap year then 29
  else daysBefore.getD m.toNat 0 - daysBefore.getD (m - 1).toNat 0

/-- Fields that the loop of `Parse` fills in; `-1` marks a month not set. -/
structure Fields where
  year : Int := 0
  month : Int := -1
deriving DecidableEq, Repr

/-- Loop of `Parse` over the chunks of the layout: each turn skips a literal
or reads one standard field from the head of `value`. -/
def parseLoop (alayout : List Chunk) (avalue : GoString) :
    List Chunk → GoString → Fields → Except ParseError (GoString × Fields)
  | [], value, f => Except.ok (value, f)
  | Chunk.lit pfx :: rest, value, f =>
    match skip value pfx with
    | none => Except.error ⟨alayout, avalue, some (Chunk.lit pfx), value, ParseMessage.none⟩
    | some value => parseLoop alayout avalue rest value f
  | Chunk.stdLongYear :: rest, value, f =>
    if value.length < 4 || !isDigit value 0 then
      Except.error ⟨alayout, avalue, some Chunk.stdLongYear, value, ParseMessage.none⟩
    else
      match atoi (value.take 4) with
      | none => Except.error ⟨alayout, avalue, some Chunk.stdLongYear, value, ParseMessage.none⟩
      | some year => parseLoop alayout avalue rest (value.drop 4) { f with year := year }
  | Chunk.stdZeroMonth :: rest, value, f =>
    match getnum value true with
    | none => Except.error ⟨alayout, avalue, some Chunk.stdZeroMonth, value, ParseMessage.none⟩
    | some (month, value1) =>
      if month ≤ 0 || 12 < month then
        Except.error ⟨alayout, avalue, some Chunk.stdZeroMonth, value1,
          ParseMessage.monthOutOfRange⟩
      else parseLoop alayout avalue rest value1 { f with month := month }

/-- Function `time.ParseInLocation` for layouts made of the chunks above: no
zone is read, so the result is in `loc`. -/
def ParseInLocation (layout : List Chunk) (value : GoString) (loc : Location) :
    Time × Option ParseError :=
  match parseLoop layout value layout value {} with
  | Except.error e => (Time.zero, some e)
  | Except.ok (rest, f) =>
    if rest.length ≠ 0 then
      (Time.zero, some ⟨layout, value, none, rest, ParseMessage.extraText rest⟩)
    else
      let month := if f.month < 0 then 1 else f.month
      let day : Int := 1
      if day < 1 || day > daysIn month f.year then
        (Time.zero, some ⟨layout, value, none, rest, ParseMessage.dayOutOfRange⟩)
      else (Date f.year month day 0 0 0 0 loc, none)

/-- Function `appendInt`: the decimal text of `x`, zero-padded to `width`. -/
def appendInt (b : GoString) (x : Int) (width : Nat) : GoString :=
  let b := if x < 0 then b ++ [45] else b
  let u := x.natAbs
  if width = 2 ∧ u < 100 then
    b ++ [48 + u / 10, 48 + u % 10]
  else if width = 4 ∧ u < 10000 then
    b ++ [48 + u / 1000, 48 + u / 100 % 10, 48 + u / 10 % 10, 48 + u % 10]
  else
    let digits := (Nat.toDigits 10 u).map Char.toNat
    b ++ List.replicate (width - digits.length) 48 ++ digits

/-- One turn of the loop of `Time.AppendFormat`: appends the text of a chunk. -/
def Time.appendChunk (t : Time) (b : GoString) : Chunk → GoString
  | Chunk.lit text => b ++ text
  | Chunk.stdZeroMonth => appendInt b t.Month 2
  | Chunk.stdLongYear => appendInt b t.Year 4

/-- Method `Time.AppendFormat` for layouts made of the chunks above. -/
def Time.AppendFormat (t : Time) (b : GoString) (layout : List Chunk) : GoString :=
  layout.foldl t.appendChunk b

/-- Method `Time.Format`. -/
def Time.Format (t : Time) (layout : List Chunk) : GoString :=
  t.AppendFormat [] layout

end time

/-! ## Errors -/

/-- The three error values of package `domain` (`errors.New`). -/
inductive Sentinel where
  | ErrNotFound
  | ErrDuplicate
  | ErrInvalidArgument
deriving DecidableEq, Repr

/-- A Go `error` value, as far as the service builds or inspects one.
`errorfW format w` is `fmt.Errorf(format, w)` with `w` the operand of `%w`;
`errorfWS format w s` is `fmt.Errorf(format, w, s.Error())`, where the text of
`s` is the operand of `%s`. -/
inductive GoError where
  | sentinel (s : Sentinel)
  | parse (e : time.ParseError)
  | library (text : String)
  | errorfW (format : String) (w : GoError)
  | errorfWS (format : String) (w : GoError) (s : GoError)
deriving DecidableEq, Repr

/-- Function `errors.Is` with one of the three error values as target: walks
the chain of `%w` operands. -/
def errorsIs : GoError → Sentinel → Bool
  | GoError.sentinel s, target => s == target
  | GoError.parse _, _ => false
  | GoError.library _, _ => false
  | GoError.errorfW _ w, target => errorsIs w target
  | GoError.errorfWS _ w _, target => errorsIs w target


/-! ## Package `strings` (library model) -/

namespace strings

/-- The UTF-8 encodings of the runes for which `unicode.IsSpace` holds:
tab, LF, VT, FF, CR, space, U+0085, U+00A0, U+1680, U+2000 to U+200A, U+2028,
U+2029, U+202F, U+205F and U+3000. -/
def spaceRunes : List GoString :=
  [[9], [10], [11], [12], [13], [32], [194, 133], [194, 160], [225, 154, 128],
   [226, 128, 128], [226, 128, 129], [226, 128, 130], [226, 128, 131], [226, 128, 132],
   [226, 128, 133], [226, 128, 134], [226, 128, 135], [226, 128, 136], [226, 128, 137],
   [226, 128, 138], [226, 128, 168], [226, 128, 169], [226, 128, 175], [226, 129, 159],
   [227, 128, 128]]

/-- The rest of `s` after the space rune it begins with, if it begins with one. -/
def dropSpace (runes : List GoString) (s : GoString) : Option GoString :=
  runes.findSome? fun r => if r.isPrefixOf s then some (s.drop r.length) else none

/-- Removes space runes from the head of `s`; each turn removes at least one
byte, so `fuel = s.length` turns suffice. -/
def trimLoop (runes : List GoString) : Nat → GoString → GoString
  | 0, s => s
  | fuel + 1, s =>
    match dropSpace runes s with
    | some rest => trimLoop runes fuel rest
    | none => s

/-- Function `strings.TrimLeftFunc(s, unicode.IsSpace)`. -/
def TrimLeftSpace (s : GoString) : GoString :=
  trimLoop spaceRunes s.length s

/-- Function `strings.TrimRightFunc(s, unicode.IsSpace)`: the same from the end
of `s`, where the last rune is read backwards. -/
def TrimRightSpace (s : GoString) : GoString :=
  (trimLoop (spaceRunes.map List.reverse) s.length s.reverse).reverse

/-- Function `strings.TrimSpace`: `s` without leading and trailing white space,
as Unicode defines it. -/
def TrimSpace (s : GoString) : GoString :=
  TrimRightSpace (TrimLeftSpace s)

end strings

/-! ## Package `github.com/google/uuid` (library model) -/

namespace uuid

/-- Type `UUID`: an array of 16 bytes. -/
abbrev UUID := List Nat

/-- Value `uuid.Nil`: all zero. -/
def Nil : UUID := List.replicate 16 0

/-- Table `xvalues`: the value of a hexadecimal digit, 255 for any other byte. -/
def xvalue (c : Nat) : Nat :=
  if 48 ≤ c ∧ c ≤ 57 then c - 48
  else if 65 ≤ c ∧ c ≤ 70 then c - 55
  else if 97 ≤ c ∧ c ≤ 102 then c - 87
  else 255

/-- Function `xtob`: the byte written by two hexadecimal digits. -/
def xtob (x1 x2 : Nat) : Nat × Bool :=
  let b1 := xvalue x1
  let b2 := xvalue x2
  ((b1 * 16 ||| b2) % 256, b1 != 255 && b2 != 255)

/-- Decodes the pairs of digits of `s` at the offsets `offs`, stopping at the
first pair that is not hexadecimal. -/
def decodeAt (s : GoString) : List Nat → Option (List Nat)
  | [] => some []
  | x :: xs =>
    match xtob (s.getD x 0) (s.getD (x + 1) 0) with
    | (_, false) => none
    | (v, true) => (decodeAt s xs).map (v :: ·)

/-- ASCII case-insensitive comparison of `s` with the lower-case text `t`
(`strings.EqualFold` when `t` has no `k` and no `s`). -/
def equalFoldLower (s t : GoString) : Bool :=
  s.length == t.length &&
    (s.zip t).all fun (a, b) => a == b || (65 ≤ a && a ≤ 90 && a + 32 == b)

/-- Function `uuid.Parse`: decodes the forms `xxxxxxxx-xxxx-xxxx-xxxx-xxxxxxxxxxxx`,
the same after `urn:uuid:`, the same between two bytes (braces, not examined),
and 32 hexadecimal digits. -/
def Parse (s : GoString) : Except GoError UUID :=
  let hyphenated (s : GoString) : Except GoError UUID :=
    if s.getD 8 0 ≠ 45 ∨ s.getD 13 0 ≠ 45 ∨ s.getD 18 0 ≠ 45 ∨ s.getD 23 0 ≠ 45 then
      Except.error (GoError.library "invalid UUID format")
    else
      match decodeAt s [0, 2, 4, 6, 9, 11, 14, 16, 19, 21, 24, 26, 28, 30, 32, 34] with
      | none => Except.error (GoError.library "invalid UUID format")
      | some u => Except.ok u
  if s.length = 36 then hyphenated s
  else if s.length = 36 + 9 then
    if !equalFoldLower (s.take 9) (str "urn:uuid:") then
      Except.error (GoError.library "invalid urn prefix")
    else hyphenated (s.drop 9)
  else if s.length = 36 + 2 then hyphenated (s.drop 1)
  else if s.length = 32 then
    match decodeAt s ((List.range 16).map (· * 2)) with
    | none => Except.error (GoError.library "invalid UUID format")
    | some u => Except.ok u
  else Except.error (GoError.library "invalid UUID length")

end uuid

/-! ## Package `domain` -/

namespace domain

def ErrNotFound : GoError := GoError.sentinel Sentinel.ErrNotFound
def ErrDuplicate : GoError := GoError.sentinel Sentinel.ErrDuplicate
def ErrInvalidArgument : GoError := GoError.sentinel Sentinel.ErrInvalidArgument

/-- Modelled from the spec: the declaration of `domain.Subscription` is not
among the sources; its fields are those that section 3 of the specification
lists and that the service and the repository read and write. -/
structure Subscription where
  ID : uuid.UUID
  ServiceName : GoString
  Price : Int
  UserID : uuid.UUID
  StartDate : time.Time
  EndDate : Option time.Time
  CreatedAt : time.Time
  UpdatedAt : time.Time
deriving DecidableEq, Repr

/-- The zero value `domain.Subscription{}`. -/
def Subscription.zero : Subscription :=
  { ID := uuid.Nil, ServiceName := [], Price := 0, UserID := uuid.Nil,
    StartDate := time.Time.zero, EndDate := none,
    CreatedAt := time.Time.zero, UpdatedAt := time.Time.zero }

end domain

/-! ## Package `usecase`: `date.go` -/

namespace usecase

open time

/-- Constant `MonthLayout = "01-2006"`, cut into its chunks: the zero-padded
month, the literal hyphen, the four-digit year. -/
def MonthLayout : List Chunk :=
  [Chunk.stdZeroMonth, Chunk.lit [45], Chunk.stdLongYear]

/-- ParseMonthDate parses month-year (MM-YYYY) into first day of month in UTC. -/
def ParseMonthDate (s : GoString) : Time × Option GoError :=
  match ParseInLocation MonthLayout s Location.UTC with
  | (_, some err) =>
    (Time.zero, some (GoError.errorfW "invalid month format, expected MM-YYYY: %w"
      (GoError.parse err)))
  | (t, none) => (Date t.Year t.Month 1 0 0 0 0 Location.UTC, none)

def FormatMonthDate (t : Time) : GoString :=
  if t.IsZero then []
  else t.Format MonthLayout

/-! ## Package `usecase`: `dto.go`, `validation.go`, `subscription_service.go` -/

structure SubscriptionInput where
  ServiceName : GoString
  Price : Int
  UserID : GoString
  StartDate : GoString
  EndDate : Option GoString
deriving DecidableEq, Repr

structure ListFilter where
  UserID : Option uuid.UUID
  ServiceName : Option GoString
  Limit : Int
  Offset : Int
deriving DecidableEq, Repr

structure SummaryFilter where
  UserID : Option uuid.UUID
  ServiceName : Option GoString
  Start : Time
  End : Time
deriving DecidableEq, Repr

/-- Interface `SubscriptionRepository`. A call answers with a value or with an
error; the service reads no value from a call that answers with an error. -/
structure SubscriptionRepository where
  Create : domain.Subscription → Except GoError domain.Subscription
  Get : uuid.UUID → Except GoError domain.Subscription
  Update : domain.Subscription → Except GoError domain.Subscription
  Delete : uuid.UUID → Option GoError
  List : ListFilter → Except GoError (List domain.Subscription)
  Summary : SummaryFilter → Except GoError Int

/-- What a method of the service does besides returning: the calls it makes
to the repository and the lines it logs, in order. -/
inductive Event where
  | repoCreate (s : domain.Subscription)
  | repoGet (id : uuid.UUID)
  | repoUpdate (s : domain.Subscription)
  | repoDelete (id : uuid.UUID)
  | repoList (filter : ListFilter)
  | repoSummary (filter : SummaryFilter)
  | logError (msg : String) (err : GoError)
deriving DecidableEq, Repr

structure Service where
  repo : SubscriptionRepository

def Service.validateDomain (_s : Service) (sub : domain.Subscription) : Option GoError :=
  if sub.UserID = uuid.Nil then
    some (GoError.errorfW "%w: user_id is required" domain.ErrInvalidArgument)
  else if sub.StartDate.IsZero then
    some (GoError.errorfW "%w: start_date is required" domain.ErrInvalidArgument)
  else none

def Service.validateInput (s : Service) (input : SubscriptionInput) :
    domain.Subscription × Option GoError :=
  let name := strings.TrimSpace input.ServiceName
  if name.length < 3 then
    (domain.Subscription.zero, some (GoError.errorfW
      "%w: service_name must be at least 3 characters" domain.ErrInvalidArgument))
  else if input.Price ≤ 0 then
    (domain.Subscription.zero, some (GoError.errorfW
      "%w: price must be positive integer" domain.ErrInvalidArgument))
  else
    match uuid.Parse input.UserID with
    | Except.error _ =>
      (domain.Subscription.zero, some (GoError.errorfW
        "%w: invalid user_id" domain.ErrInvalidArgument))
    | Except.ok uid =>
      match ParseMonthDate input.StartDate with
      | (_, some err) =>
        (domain.Subscription.zero, some (GoError.errorfWS "%w: %s" domain.ErrInvalidArgument err))
      | (start, none) =>
        let parsedEnd : Except GoError (Option Time) :=
          match input.EndDate with
          | some e =>
            if strings.TrimSpace e ≠ [] then
              match ParseMonthDate e with
              | (_, some err) =>
                Except.error (GoError.errorfWS "%w: %s" domain.ErrInvalidArgument err)
              | (t, none) => Except.ok (some t)
            else Except.ok none
          | none => Except.ok none
        match parsedEnd with
        | Except.error err => (domain.Subscription.zero, some err)
        | Except.ok endDate =>
          if (match endDate with
              | some e => e.Before start
              | none => false) then
            (domain.Subscription.zero, some (GoError.errorfW
              "%w: end_date must be after start_date" domain.ErrInvalidArgument))
          else
            let sub : domain.Subscription :=
              { domain.Subscription.zero with
                ServiceName := name
                Price := input.Price
                UserID := uid
                StartDate := start
                EndDate := endDate }
            match s.validateDomain sub with
            | some err => (domain.Subscription.zero, some err)
            | none => (sub, none)

/-- Method `Service.Create`; `newID` is the value that `uuid.New()` draws. -/
def Service.Create (s : Service) (newID : uuid.UUID) (input : SubscriptionInput) :
    (domain.Subscription × Option GoError) × List Event :=
  match s.validateInput input with
  | (_, some err) => ((domain.Subscription.zero, some err), [])
  | (sub, none) =>
    let sub := { sub with ID := newID }
    match s.repo.Create sub with
    | Except.error err =>
      ((domain.Subscription.zero, some err),
        [Event.repoCreate sub, Event.logError "create subscription" err])
    | Except.ok created => ((created, none), [Event.repoCreate sub])

def Service.Update (s : Service) (id : uuid.UUID) (input : SubscriptionInput) :
    (domain.Subscription × Option GoError) × List Event :=
  match s.validateInput input with
  | (_, some err) => ((domain.Subscription.zero, some err), [])
  | (sub, none) =>
    let sub := { sub with ID := id }
    match s.repo.Update sub with
    | Except.error err =>
      ((domain.Subscription.zero, some err),
        [Event.repoUpdate sub, Event.logError "update subscription" err])
    | Except.ok updated => ((updated, none), [Event.repoUpdate sub])

def Service.Summary (s : Service) (filter : SummaryFilter) :
    (Int × Option GoError) × List Event :=
  if filter.Start.IsZero || filter.End.IsZero then
    ((0, some (GoError.errorfW "%w: start and end are required" domain.ErrInvalidArgument)), [])
  else if filter.End.Before filter.Start then
    ((0, some (GoError.errorfW "%w: end must be after start" domain.ErrInvalidArgument)), [])
  else
    match s.repo.Summary filter with
    | Except.error err =>
      ((0, some err), [Event.repoSummary filter, Event.logError "summary subscriptions" err])
    | Except.ok total => ((total, none), [Event.repoSummary filter])

end usecase

/-! ## Package `postgres`: `subscription_repo.go` -/

namespace postgres

open time

/-- A value of the SQL type `date`: a civil date. -/
structure PgDate where
  year : Int
  month : Int
  day : Int
deriving DecidableEq, Repr

/-- SQL `a <= b` on dates. -/
def PgDate.le (a b : PgDate) : Bool :=
  a.year < b.year || (a.year == b.year &&
    (a.month < b.month || (a.month == b.month && a.day ≤ b.day)))

/-- SQL `d + interval '1 month'`: the next month, the year carried, the day cut
down to the last day of that month. -/
def PgDate.addMonth (d : PgDate) : PgDate :=
  let mon := d.month + 1
  let (y, mon) := if mon > 12 then (d.year + (mon - 1) / 12, (mon - 1) % 12 + 1) else (d.year, mon)
  let last := daysIn mon y
  { year := y, month := mon, day := if d.day > last then last else d.day }

/-- Rows of `generate_series`: `cur`, then one month more each turn, as long as
the value is not after `stop`. -/
def generateSeriesLoop : Nat → PgDate → PgDate → List PgDate
  | 0, _, _ => []
  | fuel + 1, cur, stop =>
    if cur.le stop then cur :: generateSeriesLoop fuel cur.addMonth stop else []

/-- SQL `generate_series(start, stop, interval '1 month')`. The loop makes one
turn per month from `start` to `stop`, and one more that ends it. -/
def generateSeries (start stop : PgDate) : List PgDate :=
  generateSeriesLoop
    ((stop.year - start.year) * 12 + (stop.month - start.month) + 2).toNat start stop

/-- A row of the table `subscriptions`. -/
structure Row where
  id : uuid.UUID
  service_name : GoString
  price : Int
  user_id : uuid.UUID
  start_date : PgDate
  end_date : Option PgDate
  created_at : Time
  updated_at : Time
deriving DecidableEq, Repr

/-- The connection pool, with the table behind it: `failure` is the error with
which a query fails, if the database cannot answer. -/
structure Pool where
  subscriptions : List Row
  failure : Option GoError

structure SubscriptionRepository where
  pool : Pool

/-- The parameter `$1::date` for a `time.Time`: its civil date. -/
def PgDate.ofTime (t : Time) : PgDate :=
  { year := t.Year, month := t.Month, day := t.Day }

/-- The join condition of the summary query: `s.start_date <= m.m AND
(s.end_date IS NULL OR s.end_date >= m.m)`. -/
def joinCond (s : Row) (m : PgDate) : Bool :=
  s.start_date.le m &&
    (match s.end_date with
     | none => true
     | some e => m.le e)

/-- The `WHERE` clause of the summary query: `($3::uuid IS NULL OR s.user_id =
$3) AND ($4::text IS NULL OR s.service_name = $4)`. -/
def whereCond (p3 : Option uuid.UUID) (p4 : Option GoString) (s : Row) : Bool :=
  (match p3 with
   | none => true
   | some u => s.user_id == u) &&
  (match p4 with
   | none => true
   | some n => s.service_name == n)

/-- SQL `COALESCE(SUM(x), 0)`: the sum, and 0 in place of the `NULL` that `SUM`
gives over no row. -/
def coalesceSum (xs : List Int) : Int :=
  match xs with
  | [] => 0
  | _ :: _ => xs.sum

/-- The summary query: the months of the series joined with the rows active in
them, the joined rows filtered, their prices added up. -/
def summaryQuery (rows : List Row) (p1 p2 : PgDate) (p3 : Option uuid.UUID)
    (p4 : Option GoString) : Int :=
  let months := generateSeries p1 p2
  let joined := months.flatMap fun m => (rows.filter fun s => joinCond s m).map fun s => (m, s)
  let selected := joined.filter fun ms => whereCond p3 p4 ms.2
  coalesceSum (selected.map fun ms => ms.2.price)

/-- Constant `math.MinInt64`. -/
def MinInt64 : Int := -9223372036854775808

/-- Constant `math.MaxInt64`. -/
def MaxInt64 : Int := 9223372036854775807

/-- Method `Scan` of the row of the summary query into `total int64`: a sum
beyond the range of `int64` is an error, of the database or of the scan. -/
def scanInt64 (v : Int) : Except GoError Int :=
  if MinInt64 ≤ v ∧ v ≤ MaxInt64 then Except.ok v
  else Except.error (GoError.library "value out of range for int64")

def SubscriptionRepository.Summary (r : SubscriptionRepository)
    (filter : usecase.SummaryFilter) : Int × Option GoError :=
  match r.pool.failure with
  | some err => (0, some (GoError.errorfW "repo SummarySubscriptions: %w" err))
  | none =>
    match scanInt64 (summaryQuery r.pool.subscriptions (PgDate.ofTime filter.Start)
        (PgDate.ofTime filter.End) filter.UserID filter.ServiceName) with
    | Except.error err => (0, some (GoError.errorfW "repo SummarySubscriptions: %w" err))
    | Except.ok total => (total, none)

/-- A `date` column read into a `time.Time`: midnight of that day in UTC. -/
def PgDate.toTime (d : PgDate) : Time :=
  Date d.year d.month d.day 0 0 0 0 Location.UTC

/-- Method `Scan` of a row of the list query, into a `domain.Subscription`. -/
def Row.scan (r : Row) : domain.Subscription :=
  { ID := r.id
    ServiceName := r.service_name
    Price := r.price
    UserID := r.user_id
    StartDate := r.start_date.toTime
    EndDate := r.end_date.map PgDate.toTime
    CreatedAt := r.created_at
    UpdatedAt := r.updated_at }

/-- Puts `r` into rows ordered by `created_at`, latest first, before the first
row created earlier. -/
def insertByCreatedDesc (r : Row) : List Row → List Row
  | [] => [r]
  | x :: xs =>
    if x.created_at.Before r.created_at then r :: x :: xs
    else x :: insertByCreatedDesc r xs

/-- SQL `ORDER BY created_at DESC`; rows created at the same instant, whose
order SQL leaves open, keep the order of the table. -/
def orderByCreatedDesc (rows : List Row) : List Row :=
  rows.foldr insertByCreatedDesc []

/-- The list query: the rows that pass the `WHERE` clause `($1::uuid IS NULL OR
user_id = $1) AND ($2::text IS NULL OR service_name = $2)`, `ORDER BY
created_at DESC LIMIT $3 OFFSET $4`. The database refuses a negative `OFFSET`
and a negative `LIMIT` with an error. -/
def listQuery (rows : List Row) (p1 : Option uuid.UUID) (p2 : Option GoString)
    (p3 p4 : Int) : Except GoError (List Row) :=
  if p4 < 0 then Except.error (GoError.library "OFFSET must not be negative")
  else if p3 < 0 then Except.error (GoError.library "LIMIT must not be negative")
  else
    Except.ok
      (((orderByCreatedDesc (rows.filter (whereCond p1 p2))).drop p4.toNat).take p3.toNat)

def SubscriptionRepository.List (r : SubscriptionRepository) (filter : usecase.ListFilter) :
    List domain.Subscription × Option GoError :=
  let limit := filter.Limit
  let limit := if limit ≤ 0 ∨ limit > 100 then 20 else limit
  let offset := filter.Offset
  let offset := if offset < 0 then 0 else offset
  match r.pool.failure with
  | some err => ([], some (GoError.errorfW "repo ListSubscriptions: %w" err))
  | none =>
    match listQuery r.pool.subscriptions filter.UserID filter.ServiceName limit offset with
    | Except.error err => ([], some (GoError.errorfW "repo ListSubscriptions: %w" err))
    | Except.ok rows => (rows.map Row.scan, none)

end postgres

/-! ## Package `http`: `middleware.go` -/

namespace http

/-- Modelled from the spec: the declaration of `errorResponse` is not among the
sources; it is the JSON body of a failure, which carries the message. -/
structure errorResponse where
  Error : String
deriving DecidableEq, Repr

/-- What a handler writes to its `http.ResponseWriter`: the status, the
`Content-Type` header and the value encoded as the body. -/
structure Response where
  status : Nat
  contentType : String
  body : errorResponse
deriving DecidableEq, Repr

def StatusBadRequest : Nat := 400
def StatusNotFound : Nat := 404
def StatusConflict : Nat := 409
def StatusInternalServerError : Nat := 500

def writeJSON (status : Nat) (v : errorResponse) : Response :=
  { status := status, contentType := "application/json", body := v }

def writeError (status : Nat) (msg : String) : Response :=
  writeJSON status { Error := msg }

structure Handler where
  service : usecase.Service

def Handler.handleError (_h : Handler) (err : GoError) : Response :=
  if errorsIs err Sentinel.ErrInvalidArgument then writeError StatusBadRequest "invalid argument"
  else if errorsIs err Sentinel.ErrDuplicate then writeError StatusConflict "already exists"
  else if errorsIs err Sentinel.ErrNotFound then writeError StatusNotFound "not found"
  else writeError StatusInternalServerError "internal error"

end http

/-! ## Definitions used to state and prove the properties -/

namespace time

/-- Year of an absolute time, as `absDate` computes it. -/
def absYear (abs : Int) : Int :=
  let d := abs / secondsPerDay
  let n := d / daysPer400Years
  let y := 400 * n
  let d := d - daysPer400Years * n
  let n := d / daysPer100Years
  let n := n - n / 4
  let y := y + 100 * n
  let d := d - daysPer100Years * n
  let n := d / daysPer4Years
  let y := y + 4 * n
  let d := d - daysPer4Years * n
  let n := d / 365
  let n := n - n / 4
  let y := y + n
  y + absoluteZeroYear

/-- Day of the year (from 0) of an absolute time, as `absDate` computes it. -/
def absYday (abs : Int) : Int :=
  let d := abs / secondsPerDay
  let n := d / daysPer400Years
  let d := d - daysPer400Years * n
  let n := d / daysPer100Years
  let n := n - n / 4
  let d := d - daysPer100Years * n
  let n := d / daysPer4Years
  let d := d - daysPer4Years * n
  let n := d / 365
  let n := n - n / 4
  d - 365 * n

/-- Month and day of `absDate`, from the year and the day of the year. -/
def monthDay (year yday : Int) : Int × Int × Int × Int :=
  if isLeap year && yday == 31 + 29 - 1 then
    (year, 2, 29, yday)
  else
    let day := if isLeap year && yday > 31 + 29 - 1 then yday - 1 else yday
    let month := day / 31
    let e := daysBefore.getD (month + 1).toNat 0
    let (month, b) :=
      if day ≥ e then (month + 1, e) else (month, daysBefore.getD month.toNat 0)
    (year, month + 1, day - b + 1, yday)

/-- Day of the year (from 0) on which month `m` begins. -/
def monthStart (y m : Int) : Int :=
  daysBefore.getD (m - 1).toNat 0 + (if isLeap y && m ≥ 3 then 1 else 0)

end time

/-- A decimal digit, as a byte. -/
def isDigitByte (c : Nat) : Prop := 48 ≤ c ∧ c ≤ 57

instance (c : Nat) : Decidable (isDigitByte c) := by
  unfold isDigitByte
  infer_instance

/-- The number that two digits write. -/
def twoDigits (a b : Nat) : Int := ((a : Int) - 48) * 10 + ((b : Int) - 48)

/-- The number that four digits write. -/
def fourDigits (a b c d : Nat) : Int :=
  ((a : Int) - 48) * 1000 + ((b : Int) - 48) * 100 + ((c : Int) - 48) * 10 + ((d : Int) - 48)

/-- The texts of the shape `MM-YYYY`: two digits that write a month from 01 to
12, a hyphen, four digits, and nothing else. -/
def IsMonthText (x : GoString) : Prop :=
  ∃ m1 m2 y1 y2 y3 y4 : Nat,
    x = [m1, m2, 45, y1, y2, y3, y4] ∧
    isDigitByte m1 ∧ isDigitByte m2 ∧ isDigitByte y1 ∧ isDigitByte y2 ∧
    isDigitByte y3 ∧ isDigitByte y4 ∧
    1 ≤ twoDigits m1 m2 ∧ twoDigits m1 m2 ≤ 12

/-- The month that a text `MM-YYYY` writes. -/
def monthOfText (x : GoString) : Int := twoDigits (x.getD 0 0) (x.getD 1 0)

/-- The year that a text `MM-YYYY` writes. -/
def yearOfText (x : GoString) : Int :=
  fourDigits (x.getD 3 0) (x.getD 4 0) (x.getD 5 0) (x.getD 6 0)

namespace postgres

/-- The first day of the month number `i`, months counted from January of
year 0. -/
def monthAt (i : Int) : PgDate := { year := i / 12, month := i % 12 + 1, day := 1 }

/-- The number of the month `m` of year `y`, counted from January of year 0. -/
def monthIndex (y m : Int) : Int := y * 12 + (m - 1)

/-- The first days of the calendar months from month `m1` of year `y1` to
month `m2` of year `y2`, both included, in order. -/
def monthsBetween (y1 m1 y2 m2 : Int) : List PgDate :=
  (List.range (monthIndex y2 m2 - monthIndex y1 m1 + 1).toNat).map
    fun (k : Nat) => monthAt (monthIndex y1 m1 + (k : Int))

/-- The subscription is active in the month that begins on `m`: it starts on
or before `m`, and its end is unset or on or after `m`. -/
def activeIn (s : Row) (m : PgDate) : Bool :=
  s.start_date.le m && (s.end_date.isNone || s.end_date.any fun e => m.le e)

/-- The subscription matches the optional filters on user and service name. -/
def matchesFilter (userID : Option uuid.UUID) (serviceName : Option GoString) (s : Row) : Bool :=
  (userID.all fun u => s.user_id == u) && (serviceName.all fun n => s.service_name == n)

end postgres

namespace postgres

/-- The total of the summary in the words of the specification: the sum, over
the months, of the prices of the subscriptions that match the filters and are
active in the month. -/
def monthlyTotal (rows : List Row) (userID : Option uuid.UUID) (serviceName : Option GoString)
    (months : List PgDate) : Int :=
  (months.map fun m =>
    (((rows.filter (matchesFilter userID serviceName)).filter fun s => activeIn s m).map
      Row.price).sum).sum

end postgres

/-- The repository of the example: one subscription of price 100 from 01-2025
to 03-2025. -/
def exampleRepository : postgres.SubscriptionRepository :=
  { pool :=
    { subscriptions :=
        [{ id := uuid.Nil, service_name := str "Yandex Plus", price := 100, user_id := uuid.Nil,
           start_date := ⟨2025, 1, 1⟩, end_date := some ⟨2025, 3, 1⟩,
           created_at := time.Time.zero, updated_at := time.Time.zero }],
      failure := none } }

/-- A repository with one subscription of price 2^62, from 01-2025 on. -/
def exampleLargeRepository : postgres.SubscriptionRepository :=
  { pool :=
    { subscriptions :=
        [{ id := uuid.Nil, service_name := str "Yandex Plus", price := 4611686018427387904,
           user_id := uuid.Nil, start_date := ⟨2025, 1, 1⟩, end_date := none,
           created_at := time.Time.zero, updated_at := time.Time.zero }],
      failure := none } }

/-- The filter of the example: the months from `m1` to `m2` of 2025. -/
def exampleFilter (m1 m2 : Int) : usecase.SummaryFilter :=
  { UserID := none, ServiceName := none,
    Start := time.Date 2025 m1 1 0 0 0 0 time.Location.UTC,
    End := time.Date 2025 m2 1 0 0 0 0 time.Location.UTC }

namespace usecase

open time

def errServiceName : GoError :=
  GoError.errorfW "%w: service_name must be at least 3 characters" domain.ErrInvalidArgument

def errPrice : GoError :=
  GoError.errorfW "%w: price must be positive integer" domain.ErrInvalidArgument

def errUserID : GoError := GoError.errorfW "%w: invalid user_id" domain.ErrInvalidArgument

/-- The error of a date that `ParseMonthDate` refuses with `err`. -/
def errDate (err : GoError) : GoError := GoError.errorfWS "%w: %s" domain.ErrInvalidArgument err

def errEndBeforeStart : GoError :=
  GoError.errorfW "%w: end_date must be after start_date" domain.ErrInvalidArgument

def errUserIDRequired : GoError :=
  GoError.errorfW "%w: user_id is required" domain.ErrInvalidArgument

def errStartRequired : GoError :=
  GoError.errorfW "%w: start_date is required" domain.ErrInvalidArgument

/-- Check of the service name: at least 3 bytes once trimmed. -/
def checkServiceName (input : SubscriptionInput) : Option GoError :=
  if (strings.TrimSpace input.ServiceName).length < 3 then some errServiceName else none

/-- Check of the price: positive. -/
def checkPrice (input : SubscriptionInput) : Option GoError :=
  if input.Price ≤ 0 then some errPrice else none

/-- Check of the user identifier: well formed. -/
def checkUserID (input : SubscriptionInput) : Option GoError :=
  match uuid.Parse input.UserID with
  | Except.error _ => some errUserID
  | Except.ok _ => none

/-- Check of the start date: a month that `ParseMonthDate` accepts. -/
def checkStartDate (input : SubscriptionInput) : Option GoError :=
  (ParseMonthDate input.StartDate).2.map errDate

/-- The end date is provided: present and not blank. -/
def endProvided (input : SubscriptionInput) : Option GoString :=
  input.EndDate.filter fun e => strings.TrimSpace e ≠ []

/-- Check of the end date, when provided: a month that `ParseMonthDate` accepts. -/
def checkEndDate (input : SubscriptionInput) : Option GoError :=
  (endProvided input).bind fun e => (ParseMonthDate e).2.map errDate

/-- Check of the order of two valid dates: the end is not before the start. -/
def checkEndNotBeforeStart (input : SubscriptionInput) : Option GoError :=
  (endProvided input).bind fun e =>
    if (ParseMonthDate e).2 = none ∧ (ParseMonthDate input.StartDate).2 = none ∧
        (ParseMonthDate e).1.Before (ParseMonthDate input.StartDate).1 = true then
      some errEndBeforeStart
    else none

/-- Check of the user identifier: not the nil identifier. -/
def checkUserIDNotNil (input : SubscriptionInput) : Option GoError :=
  match uuid.Parse input.UserID with
  | Except.ok uid => if uid = uuid.Nil then some errUserIDRequired else none
  | Except.error _ => none

/-- Check of the start date: not the zero time. -/
def checkStartNotZero (input : SubscriptionInput) : Option GoError :=
  if (ParseMonthDate input.StartDate).2 = none ∧
      (ParseMonthDate input.StartDate).1.IsZero = true then
    some errStartRequired
  else none

/-- The checks in the order in which `validateInput` applies them. -/
def checksInOrder (input : SubscriptionInput) : List (Option GoError) :=
  [checkServiceName input, checkPrice input, checkUserID input, checkStartDate input,
   checkEndDate input, checkEndNotBeforeStart input, checkUserIDNotNil input,
   checkStartNotZero input]

/-- The error of the first check that fails. -/
def firstFailure (checks : List (Option GoError)) : Option GoError :=
  checks.findSome? id

/-- The record that `validateInput` builds from an input that passes the
checks: the trimmed name, the price, the parsed identifier and dates; no
identity and no timestamps. -/
def validatedRecord (input : SubscriptionInput) : domain.Subscription :=
  { domain.Subscription.zero with
    ServiceName := strings.TrimSpace input.ServiceName
    Price := input.Price
    UserID := match uuid.Parse input.UserID with
      | Except.ok uid => uid
      | Except.error _ => uuid.Nil
    StartDate := (ParseMonthDate input.StartDate).1
    EndDate := (endProvided input).map fun e => (ParseMonthDate e).1 }

end usecase

namespace time

/-- Day number of the first of month `m` of year `y`. -/
def firstDay (y m : Int) : Int := daysSinceEpoch y + monthStart y m

end time

namespace usecase

open time

/-- The event is a call to the repository (and not a line of the log). -/
def Event.isRepoCall : Event → Bool
  | Event.logError _ _ => false
  | _ => true

/-- A repository for the examples: stores nothing, answers every call without
error, and 42 to `Summary`. -/
def exampleRepo : SubscriptionRepository :=
  { Create := fun s => Except.ok s
    Get := fun _ => Except.error domain.ErrNotFound
    Update := fun s => Except.ok s
    Delete := fun _ => none
    List := fun _ => Except.ok []
    Summary := fun _ => Except.ok 42 }

def exampleService : Service := { repo := exampleRepo }

/-- An input that passes every check. -/
def exampleInput : SubscriptionInput :=
  { ServiceName := str "Yandex Plus", Price := 400,
    UserID := str "60601fee-2bf1-4721-ae6f-7636e79a0cba",
    StartDate := str "07-2025", EndDate := none }

end usecase

namespace usecase

open time

/-- The month that the text `a` writes is strictly earlier than the month that
the text `b` writes. -/
def monthBefore (a b : GoString) : Prop :=
  yearOfText a < yearOfText b ∨ (yearOfText a = yearOfText b ∧ monthOfText a < monthOfText b)

instance (a b : GoString) : Decidable (monthBefore a b) := by
  unfold monthBefore
  infer_instance

/-- The third check as the specification words it: the user identifier is well
formed and not nil. -/
def checkUserIDAsSpecified (input : SubscriptionInput) : Option GoError :=
  match uuid.Parse input.UserID with
  | Except.error _ => some errUserID
  | Except.ok uid => if uid = uuid.Nil then some errUserIDRequired else none

/-- The six checks in the order of the specification. -/
def checksAsSpecified (input : SubscriptionInput) : List (Option GoError) :=
  [checkServiceName input, checkPrice input, checkUserIDAsSpecified input,
   checkStartDate input, checkEndDate input, checkEndNotBeforeStart input]

end usecase

namespace postgres

/-- The limit that the list query runs with: the limit asked for when it is
from 1 to 100, and 20 otherwise. -/
def effectiveLimit (limit : Int) : Int :=
  if 1 ≤ limit ∧ limit ≤ 100 then limit else 20

/-- The offset that the list query runs with: the offset asked for when it is
not negative, and 0 otherwise. -/
def effectiveOffset (offset : Int) : Int :=
  if 0 ≤ offset then offset else 0

/-- The page of the list: the rows that match the filters, latest first,
without the first `offset` of them, and `limit` of them at most. -/
def listPage (rows : List Row) (userID : Option uuid.UUID) (serviceName : Option GoString)
    (limit offset : Nat) : List Row :=
  ((orderByCreatedDesc (rows.filter (matchesFilter userID serviceName))).drop offset).take limit

/-- A row for the examples: a subscription created `created` seconds after the
start of year 1. -/
def exampleRow (created : Int) : Row :=
  { id := List.replicate 16 created.toNat, service_name := str "Netflix", price := 100,
    user_id := uuid.Nil, start_date := ⟨2025, 1, 1⟩, end_date := none,
    created_at := { sec := created, nsec := 0, loc := time.Location.UTC },
    updated_at := { sec := created, nsec := 0, loc := time.Location.UTC } }

/-- A repository for the examples, with 30 subscriptions created one second
apart. -/
def exampleListRepository : SubscriptionRepository :=
  { pool := { subscriptions := (List.range 30).map fun k => exampleRow (k + 1), failure := none } }

end postgres

namespace usecase

/-- An input that passes every check, with white space around the name and an
end date equal to the start date. -/
def examplePaddedInput : SubscriptionInput :=
  { ServiceName := str "  Netflix ", Price := 400,
    UserID := str "60601fee-2bf1-4721-ae6f-7636e79a0cba",
    StartDate := str "07-2025", EndDate := some (str "07-2025") }

/-- A repository for the examples that knows no subscription: `Update`
answers `ErrNotFound`. -/
def exampleEmptyRepo : SubscriptionRepository :=
  { exampleRepo with Update := fun _ => Except.error domain.ErrNotFound }

end usecase

namespace uuid

/-- A hexadecimal digit, as a byte: `0` to `9`, `A` to `F` or `a` to `f`. -/
def isHexByte (c : Nat) : Bool :=
  (48 ≤ c && c ≤ 57) || (65 ≤ c && c ≤ 70) || (97 ≤ c && c ≤ 102)

/-- The text begins with the form `xxxxxxxx-xxxx-xxxx-xxxx-xxxxxxxxxxxx`: 36
bytes, hyphens at the places 8, 13, 18 and 23, hexadecimal digits at the 32
other places. -/
def isHyphenatedForm (t : GoString) : Bool :=
  (List.range 36).all fun i =>
    if i = 8 ∨ i = 13 ∨ i = 18 ∨ i = 23 then t.getD i 0 == 45 else isHexByte (t.getD i 0)

/-- The text is an identifier in one of the four forms of the package: the
hyphenated form, the same after `urn:uuid:`, the same between braces, or 32
hexadecimal digits. -/
def isValidText (s : GoString) : Bool :=
  (s.length == 36 && isHyphenatedForm s) ||
  (s.length == 45 && equalFoldLower (s.take 9) (str "urn:uuid:") &&
    isHyphenatedForm (s.drop 9)) ||
  (s.length == 38 && s.head? == some 123 && s.getLast? == some 125 &&
    isHyphenatedForm (s.drop 1)) ||
  (s.length == 32 && (List.range 32).all fun i => isHexByte (s.getD i 0))

/-- The texts that `Parse` takes: the valid ones, and every text of 38 bytes
that has the hyphenated form from its second byte on, whatever its first and
last bytes. -/
def isParsedText (s : GoString) : Bool :=
  isValidText s || (s.length == 38 && isHyphenatedForm (s.drop 1))

end uuid

namespace usecase

/-- The input of the example with a user identifier of 38 bytes that has a
valid identifier between an `x` and a `y` in place of the braces. -/
def exampleUnbracedInput : SubscriptionInput :=
  { exampleInput with UserID := str "x60601fee-2bf1-4721-ae6f-7636e79a0cbay" }

end usecase

/-! # Properties -/

/-! ## The calendar of package `time` -/

namespace time

theorem daysSinceEpoch_spec (y : Int) (hy : absoluteZeroYear ≤ y) :
   ∃ n1 n2 n3 n4 : Int, 0 ≤ n1 ∧ 0 ≤ n2 ∧ n2 < 4 ∧ 0 ≤ n3 ∧ n3 < 25 ∧ 0 ≤ n4 ∧ n4 < 4 ∧
     y - absoluteZeroYear = 400 * n1 + 100 * n2 + 4 * n3 + n4 ∧
     daysSinceEpoch y = 146097 * n1 + 36524 * n2 + 1461 * n3 + 365 * n4 := by
  simp only [daysSinceEpoch, daysPer400Years, daysPer100Years, daysPer4Years, absoluteZeroYear] at *
  generalize hY : y - -292277022399 = Y
  have hY0 : 0 ≤ Y := by omega
  refine ⟨Y / 400, (Y - 400 * (Y / 400)) / 100, 
    (Y - 400 * (Y / 400) - 100 * ((Y - 400 * (Y / 400)) / 100)) / 4, 
    (Y - 400 * (Y / 400) - 100 * ((Y - 400 * (Y / 400)) / 100)) - 4 * ((Y - 400 * (Y / 400) - 100 * ((Y - 400 * (Y / 400)) / 100)) / 4), ?_⟩
  omega

theorem isLeap_spec (y n1 n2 n3 n4 : Int) (h2 : 0 ≤ n2 ∧ n2 < 4) (h3 : 0 ≤ n3 ∧ n3 < 25) (h4 : 0 ≤ n4 ∧ n4 < 4)
    (h : y - absoluteZeroYear = 400 * n1 + 100 * n2 + 4 * n3 + n4) :
    isLeap y = true ↔ (n4 = 3 ∧ (n3 ≠ 24 ∨ n2 = 3)) := by
  simp only [isLeap, absoluteZeroYear] at *
  simp only [Bool.and_eq_true, Bool.or_eq_true, beq_iff_eq, bne_iff_ne, ne_eq]
  omega

theorem absDate_eq (abs : Int) : absDate abs = monthDay (absYear abs) (absYday abs) := rfl

theorem absYear_absYday (y yd : Int) (hy : absoluteZeroYear ≤ y) (h0 : 0 ≤ yd)
    (h1 : yd < (if isLeap y then 366 else 365)) (s : Int) (hs0 : 0 ≤ s) (hs1 : s < 86400) :
    absYear ((daysSinceEpoch y + yd) * 86400 + s) = y ∧
    absYday ((daysSinceEpoch y + yd) * 86400 + s) = yd := by
  obtain ⟨n1, n2, n3, n4, hn1, hn2, hn2', hn3, hn3', hn4, hn4', hY, hD⟩ := daysSinceEpoch_spec y hy
  have hl := isLeap_spec y n1 n2 n3 n4 ⟨hn2, hn2'⟩ ⟨hn3, hn3'⟩ ⟨hn4, hn4'⟩ hY
  have hyd : yd < 365 ∨ (yd = 365 ∧ n4 = 3 ∧ (n3 ≠ 24 ∨ n2 = 3)) := by
    by_cases hlp : isLeap y = true
    · rw [if_pos hlp] at h1
      have := hl.mp hlp
      omega
    · rw [if_neg hlp] at h1
      omega
  rw [hD]
  generalize hA : (146097 * n1 + 36524 * n2 + 1461 * n3 + 365 * n4 + yd) * 86400 + s = A
  have hd : A / 86400 = 146097 * n1 + 36524 * n2 + 1461 * n3 + 365 * n4 + yd := by omega
  have hR1 : 0 ≤ 36524 * n2 + 1461 * n3 + 365 * n4 + yd ∧
      36524 * n2 + 1461 * n3 + 365 * n4 + yd < 146097 := by omega
  have e1 : (146097 * n1 + 36524 * n2 + 1461 * n3 + 365 * n4 + yd) / 146097 = n1 := by omega
  have hR2 : 0 ≤ 1461 * n3 + 365 * n4 + yd ∧ 1461 * n3 + 365 * n4 + yd < 36524 ∨
      (n2 = 3 ∧ n3 = 24 ∧ n4 = 3 ∧ yd = 365) := by omega
  have e2 : (36524 * n2 + 1461 * n3 + 365 * n4 + yd) / 36524
      - (36524 * n2 + 1461 * n3 + 365 * n4 + yd) / 36524 / 4 = n2 := by omega
  have hR3 : 0 ≤ 365 * n4 + yd ∧ 365 * n4 + yd < 1461 := by omega
  have e3 : (1461 * n3 + 365 * n4 + yd) / 1461 = n3 := by omega
  have e4 : (365 * n4 + yd) / 365 - (365 * n4 + yd) / 365 / 4 = n4 := by omega
  have r1 : 146097 * n1 + 36524 * n2 + 1461 * n3 + 365 * n4 + yd - 146097 * n1
      = 36524 * n2 + 1461 * n3 + 365 * n4 + yd := by ring
  have r2 : 36524 * n2 + 1461 * n3 + 365 * n4 + yd - 36524 * n2 = 1461 * n3 + 365 * n4 + yd := by
    ring
  have r3 : 1461 * n3 + 365 * n4 + yd - 1461 * n3 = 365 * n4 + yd := by ring
  simp only [absYear, absYday, secondsPerDay, secondsPerHour, secondsPerMinute, daysPer400Years,
    daysPer100Years, daysPer4Years]
  norm_num only
  rw [hd, e1, r1, e2, r2, e3, r3, e4]
  simp only [absoluteZeroYear] at hY ⊢
  omega

theorem norm_id (hi lo base : Int) (h0 : 0 ≤ lo) (h1 : lo < base) : time.norm hi lo base = (hi, lo) := by
  simp [time.norm, Int.not_lt.mpr h0, h1]

theorem Date_first (y m : Int) (hm1 : 1 ≤ m) (hm2 : m ≤ 12) :
    Date y m 1 0 0 0 0 Location.UTC =
      ⟨(daysSinceEpoch y + monthStart y m) * 86400 + 0 + absoluteToInternal, 0, Location.UTC⟩ := by
  have h1 := norm_id y (m-1) 12 (by omega) (by omega)
  have h2 := norm_id 0 0 1000000000 (by omega) (by omega)
  have h3 := norm_id 0 0 60 (by omega) (by omega)
  have h4 := norm_id 1 0 24 (by omega) (by omega)
  unfold Date
  simp only [h1, h2, h3, h4]
  simp only [monthStart, secondsPerDay, secondsPerHour, secondsPerMinute]
  split <;> simp_all
  all_goals ring

theorem monthDay_monthStart (y m : Int) (hm1 : 1 ≤ m) (hm2 : m ≤ 12) :
    monthDay y (monthStart y m) = (y, m, 1, monthStart y m) := by
  have hm : m = 1 ∨ m = 2 ∨ m = 3 ∨ m = 4 ∨ m = 5 ∨ m = 6 ∨ m = 7 ∨ m = 8 ∨ m = 9 ∨ m = 10 ∨
      m = 11 ∨ m = 12 := by omega
  cases hl : isLeap y <;>
    rcases hm with h | h | h | h | h | h | h | h | h | h | h | h <;> subst h <;>
    simp [monthDay, monthStart, hl, daysBefore]

theorem monthStart_bound (y m : Int) (hm1 : 1 ≤ m) (hm2 : m ≤ 12) :
    0 ≤ monthStart y m ∧ monthStart y m < (if isLeap y then 366 else 365) := by
  have hm : m = 1 ∨ m = 2 ∨ m = 3 ∨ m = 4 ∨ m = 5 ∨ m = 6 ∨ m = 7 ∨ m = 8 ∨ m = 9 ∨ m = 10 ∨
      m = 11 ∨ m = 12 := by omega
  cases hl : isLeap y <;>
    rcases hm with h | h | h | h | h | h | h | h | h | h | h | h <;> subst h <;>
    simp [monthStart, hl, daysBefore]

/-- Civil date of the first of a month. -/
theorem absDate_Date_first (y m : Int) (hy : absoluteZeroYear ≤ y) (hm1 : 1 ≤ m) (hm2 : m ≤ 12) :
    absDate (Date y m 1 0 0 0 0 Location.UTC).abs = (y, m, 1, monthStart y m) := by
  have hb := monthStart_bound y m hm1 hm2
  have h := absYear_absYday y (monthStart y m) hy hb.1 hb.2 0 (le_refl _) (by omega)
  rw [Date_first y m hm1 hm2, absDate_eq]
  have habs : Time.abs ⟨(daysSinceEpoch y + monthStart y m) * 86400 + 0 + absoluteToInternal, 0,
      Location.UTC⟩ = (daysSinceEpoch y + monthStart y m) * 86400 + 0 := by
    simp only [Time.abs]
    ring
  rw [habs, h.1, h.2]
  exact monthDay_monthStart y m hm1 hm2

/-! ## Parsing and formatting with `MonthLayout` -/

theorem getnum_fixed (s : GoString) : 
    getnum s true = match s with
      | a :: b :: rest => if isDigitByte a ∧ isDigitByte b then some (twoDigits a b, rest) else none
      | _ => none := by
  rcases s with _ | ⟨a, _ | ⟨b, rest⟩⟩
  · simp [getnum, isDigit]
  · simp [getnum, isDigit]
  · simp only [getnum, isDigit, isDigitByte, twoDigits]
    by_cases h1 : 48 ≤ a ∧ a ≤ 57 <;> by_cases h2 : 48 ≤ b ∧ b ≤ 57 <;> simp [h1, h2]

theorem atoi_four (a b c d : Nat) (ha : isDigitByte a) :
    atoi [a, b, c, d] =
      if isDigitByte b ∧ isDigitByte c ∧ isDigitByte d then some (fourDigits a b c d) else none := by
  simp only [isDigitByte] at *
  have h45 : a ≠ 45 := by omega
  have h43 : a ≠ 43 := by omega
  have ha' : ¬ (a < 48 ∨ a > 57) := by omega
  have e45 : (some a == some 45) = false := by simp [h45]
  have e43 : (some a == some 43) = false := by simp [h43]
  simp only [atoi, List.head?, e45, e43, Bool.or_self, Bool.false_and, Bool.and_false,
    Bool.false_eq_true, if_false, fourDigits]
  by_cases hb : b < 48 ∨ b > 57
  · have hb' : ¬ (48 ≤ b ∧ b ≤ 57) := by omega
    simp [leadingInt, ha', hb, hb']
  · have hb' : 48 ≤ b ∧ b ≤ 57 := by omega
    by_cases hc : c < 48 ∨ c > 57
    · have hc' : ¬ (48 ≤ c ∧ c ≤ 57) := by omega
      simp [leadingInt, ha', hb, hb', hc, hc']
    · have hc' : 48 ≤ c ∧ c ≤ 57 := by omega
      by_cases hd : d < 48 ∨ d > 57
      · have hd' : ¬ (48 ≤ d ∧ d ≤ 57) := by omega
        simp [leadingInt, ha', hb, hb', hc, hc', hd, hd']
      · have hd' : 48 ≤ d ∧ d ≤ 57 := by omega
        simp [leadingInt, ha', hb, hb', hc, hc', hd, hd']
        ring


theorem daysIn_ge (m y : Int) (h1 : 1 ≤ m) (h2 : m ≤ 12) : ¬ (1 > daysIn m y) := by
  have hm : m = 1 ∨ m = 2 ∨ m = 3 ∨ m = 4 ∨ m = 5 ∨ m = 6 ∨ m = 7 ∨ m = 8 ∨ m = 9 ∨ m = 10 ∨
      m = 11 ∨ m = 12 := by omega
  cases hl : isLeap y <;>
    rcases hm with h | h | h | h | h | h | h | h | h | h | h | h <;> subst h <;>
    simp [daysIn, hl, daysBefore]

/-- The loop over `MonthLayout` on a text that begins with a month. -/
theorem parseLoop_month (al : List Chunk) (av : GoString) (a b : Nat) (rest : GoString)
    (f : Fields) (ha : isDigitByte a) (hb : isDigitByte b)
    (h1 : 1 ≤ twoDigits a b) (h2 : twoDigits a b ≤ 12) (tl : List Chunk) :
    parseLoop al av (Chunk.stdZeroMonth :: tl) (a :: b :: rest) f =
      parseLoop al av tl rest { f with month := twoDigits a b } := by
  have hr : ¬ (twoDigits a b ≤ 0 ∨ 12 < twoDigits a b) := by omega
  simp [parseLoop, getnum_fixed, ha, hb, hr]

theorem ParseInLocation_ok (m1 m2 y1 y2 y3 y4 : Nat)
    (hm1 : isDigitByte m1) (hm2 : isDigitByte m2) (hy1 : isDigitByte y1) (hy2 : isDigitByte y2)
    (hy3 : isDigitByte y3) (hy4 : isDigitByte y4)
    (h1 : 1 ≤ twoDigits m1 m2) (h2 : twoDigits m1 m2 ≤ 12) :
    ParseInLocation usecase.MonthLayout [m1, m2, 45, y1, y2, y3, y4] Location.UTC =
      (Date (fourDigits y1 y2 y3 y4) (twoDigits m1 m2) 1 0 0 0 0 Location.UTC, none) := by
  have hd := daysIn_ge (twoDigits m1 m2) (fourDigits y1 y2 y3 y4) h1 h2
  have hneg : ¬ (twoDigits m1 m2 < 0) := by omega
  have hy1' : isDigit (y1 :: [y2, y3, y4]) 0 = true := by
    simp only [isDigitByte] at hy1
    simp [isDigit, hy1]
  simp only [ParseInLocation, usecase.MonthLayout, parseLoop_month _ _ m1 m2 _ _ hm1 hm2 h1 h2]
  have hy1n : ¬ (y1 < 48 ∨ 57 < y1) := by
    simp only [isDigitByte] at hy1
    omega
  have hd' : ¬ (daysIn (twoDigits m1 m2) (fourDigits y1 y2 y3 y4) < 1) := by omega
  simp [parseLoop, skip, skipLoop, atoi_four y1 y2 y3 y4 hy1, hy2, hy3, hy4, hd', hneg,
    isDigit, hy1n]

theorem ParseInLocation_shape (x : GoString)
    (h : (ParseInLocation usecase.MonthLayout x Location.UTC).2 = none) : IsMonthText x := by
  rcases x with _ | ⟨m1, _ | ⟨m2, rest⟩⟩
  · simp [ParseInLocation, usecase.MonthLayout, parseLoop, getnum_fixed] at h
  · simp [ParseInLocation, usecase.MonthLayout, parseLoop, getnum_fixed] at h
  · by_cases hm : isDigitByte m1 ∧ isDigitByte m2
    · by_cases hr : twoDigits m1 m2 ≤ 0 ∨ 12 < twoDigits m1 m2
      · simp [ParseInLocation, usecase.MonthLayout, parseLoop, getnum_fixed, hm, hr] at h
      · have h1 : 1 ≤ twoDigits m1 m2 := by omega
        have h2 : twoDigits m1 m2 ≤ 12 := by omega
        simp only [ParseInLocation, usecase.MonthLayout,
          parseLoop_month _ _ m1 m2 _ _ hm.1 hm.2 h1 h2] at h
        rcases rest with _ | ⟨c, rest⟩
        · simp [parseLoop, skip, skipLoop] at h
        · by_cases hc : c = 45
          · subst hc
            rcases rest with _ | ⟨y1, _ | ⟨y2, _ | ⟨y3, _ | ⟨y4, rest⟩⟩⟩⟩
            · simp [parseLoop, skip, skipLoop] at h
            · simp [parseLoop, skip, skipLoop] at h
            · simp [parseLoop, skip, skipLoop] at h
            · simp [parseLoop, skip, skipLoop] at h
            · by_cases hy1 : isDigitByte y1
              · have e := atoi_four y1 y2 y3 y4 hy1
                by_cases hy : isDigitByte y2 ∧ isDigitByte y3 ∧ isDigitByte y4
                · rcases rest with _ | ⟨z, rest⟩
                  · exact ⟨m1, m2, y1, y2, y3, y4, rfl, hm.1, hm.2, hy1, hy.1, hy.2.1, hy.2.2,
                      h1, h2⟩
                  · exfalso
                    have hc : ¬ (rest.length + 1 + 1 + 1 + 1 + 1 < 4 ∨ y1 < 48 ∨ 57 < y1) := by
                      simp only [isDigitByte] at hy1
                      omega
                    simp [parseLoop, skip, skipLoop, e, hy, isDigit, hc] at h
                · simp [parseLoop, skip, skipLoop, e, hy, isDigit] at h
              · have hy1n : y1 < 48 ∨ 57 < y1 := by
                  simp only [isDigitByte] at hy1
                  omega
                simp [parseLoop, skip, skipLoop, isDigit, hy1n] at h
          · simp [parseLoop, skip, skipLoop, hc] at h
    · simp [ParseInLocation, usecase.MonthLayout, parseLoop, getnum_fixed, hm] at h

end time

/-! ## Times of the first of a month -/

namespace time

theorem Date_first_fields (y m : Int) (hy : absoluteZeroYear ≤ y) (hm1 : 1 ≤ m) (hm2 : m ≤ 12) :
    (Date y m 1 0 0 0 0 Location.UTC).Year = y ∧ (Date y m 1 0 0 0 0 Location.UTC).Month = m ∧
    (Date y m 1 0 0 0 0 Location.UTC).Day = 1 := by
  simp [Time.Year, Time.Month, Time.Day, absDate_Date_first y m hy hm1 hm2]

theorem Date_first_idem (y m : Int) (hy : absoluteZeroYear ≤ y) (hm1 : 1 ≤ m) (hm2 : m ≤ 12) :
    Date (Date y m 1 0 0 0 0 Location.UTC).Year (Date y m 1 0 0 0 0 Location.UTC).Month 1 0 0 0 0
      Location.UTC = Date y m 1 0 0 0 0 Location.UTC := by
  obtain ⟨h1, h2, _⟩ := Date_first_fields y m hy hm1 hm2
  rw [h1, h2]

theorem twoDigits_bounds (a b : Nat) (ha : isDigitByte a) (hb : isDigitByte b) :
    0 ≤ twoDigits a b ∧ twoDigits a b ≤ 99 := by
  simp only [isDigitByte, twoDigits] at *
  omega

theorem fourDigits_bounds (a b c d : Nat) (ha : isDigitByte a) (hb : isDigitByte b)
    (hc : isDigitByte c) (hd : isDigitByte d) :
    0 ≤ fourDigits a b c d ∧ fourDigits a b c d ≤ 9999 := by
  simp only [isDigitByte, fourDigits] at *
  omega

theorem appendInt_two (pre : GoString) (a b : Nat) (ha : isDigitByte a) (hb : isDigitByte b) :
    appendInt pre (twoDigits a b) 2 = pre ++ [a, b] := by
  have hb2 := twoDigits_bounds a b ha hb
  simp only [isDigitByte, twoDigits] at *
  have hn : ¬ ((↑a - 48 : Int) * 10 + (↑b - 48) < 0) := by omega
  have hu : ((↑a - 48 : Int) * 10 + (↑b - 48)).natAbs = (a - 48) * 10 + (b - 48) := by omega
  simp only [appendInt, hn, if_false, hu]
  have h100 : (a - 48) * 10 + (b - 48) < 100 := by omega
  simp only [h100, and_self, if_true]
  congr 2
  · omega
  · congr 1
    omega

theorem appendInt_four (pre : GoString) (a b c d : Nat) (ha : isDigitByte a) (hb : isDigitByte b)
    (hc : isDigitByte c) (hd : isDigitByte d) :
    appendInt pre (fourDigits a b c d) 4 = pre ++ [a, b, c, d] := by
  simp only [isDigitByte, fourDigits] at *
  have hn : ¬ ((↑a - 48 : Int) * 1000 + (↑b - 48) * 100 + (↑c - 48) * 10 + (↑d - 48) < 0) := by
    omega
  have hu : ((↑a - 48 : Int) * 1000 + (↑b - 48) * 100 + (↑c - 48) * 10 + (↑d - 48)).natAbs
      = (a - 48) * 1000 + (b - 48) * 100 + (c - 48) * 10 + (d - 48) := by omega
  simp only [appendInt, hn, if_false, hu]
  have h2 : ¬ ((4 : Nat) = 2 ∧ (a - 48) * 1000 + (b - 48) * 100 + (c - 48) * 10 + (d - 48) < 100) := by
    omega
  have h4 : (a - 48) * 1000 + (b - 48) * 100 + (c - 48) * 10 + (d - 48) < 10000 := by omega
  simp only [h2, if_false, h4, and_self, if_true]
  congr 2
  · omega
  · congr 1
    · omega
    · congr 1
      · omega
      · congr 1
        omega


theorem Date_first_abs (y m : Int) (hm1 : 1 ≤ m) (hm2 : m ≤ 12) :
    (Date y m 1 0 0 0 0 Location.UTC).abs = (daysSinceEpoch y + monthStart y m) * 86400 := by
  rw [Date_first y m hm1 hm2]
  simp only [Time.abs]
  ring

theorem Date_first_clock (y m : Int) (hm1 : 1 ≤ m) (hm2 : m ≤ 12) :
    (Date y m 1 0 0 0 0 Location.UTC).Hour = 0 ∧ (Date y m 1 0 0 0 0 Location.UTC).Minute = 0 ∧
    (Date y m 1 0 0 0 0 Location.UTC).Second = 0 ∧
    (Date y m 1 0 0 0 0 Location.UTC).Nanosecond = 0 ∧
    (Date y m 1 0 0 0 0 Location.UTC).loc = Location.UTC := by
  have h := Date_first_abs y m hm1 hm2
  simp only [Time.Hour, Time.Minute, Time.Second, Time.Nanosecond, h, secondsPerDay,
    secondsPerHour, secondsPerMinute]
  rw [Date_first y m hm1 hm2]
  refine ⟨?_, ?_, ?_, rfl, rfl⟩ <;> omega

theorem Date_one_one : Date 1 1 1 0 0 0 0 Location.UTC = Time.zero := by decide

theorem Date_first_isZero (y m : Int) (hy : absoluteZeroYear ≤ y) (hm1 : 1 ≤ m) (hm2 : m ≤ 12) :
    (Date y m 1 0 0 0 0 Location.UTC).IsZero = true ↔ y = 1 ∧ m = 1 := by
  constructor
  · intro h
    have hf := Date_first_fields y m hy hm1 hm2
    have hz : Date y m 1 0 0 0 0 Location.UTC = Date 1 1 1 0 0 0 0 Location.UTC := by
      rw [Date_one_one]
      rw [Date_first y m hm1 hm2] at h ⊢
      simp only [Time.IsZero, Bool.and_eq_true, beq_iff_eq] at h
      simp only [Time.zero, Time.mk.injEq, and_true]
      exact h.1
    have h1 := Date_first_fields 1 1 (by decide) (by decide) (by decide)
    rw [hz] at hf
    exact ⟨hf.1.symm.trans h1.1, hf.2.1.symm.trans h1.2.1⟩
  · rintro ⟨rfl, rfl⟩
    decide

end time

namespace usecase

open time

theorem ParseMonthDate_text (m1 m2 y1 y2 y3 y4 : Nat)
    (hm1 : isDigitByte m1) (hm2 : isDigitByte m2) (hy1 : isDigitByte y1) (hy2 : isDigitByte y2)
    (hy3 : isDigitByte y3) (hy4 : isDigitByte y4)
    (h1 : 1 ≤ twoDigits m1 m2) (h2 : twoDigits m1 m2 ≤ 12) :
    ParseMonthDate [m1, m2, 45, y1, y2, y3, y4] =
      (Date (fourDigits y1 y2 y3 y4) (twoDigits m1 m2) 1 0 0 0 0 Location.UTC, none) := by
  have hy := fourDigits_bounds y1 y2 y3 y4 hy1 hy2 hy3 hy4
  have hz : absoluteZeroYear ≤ fourDigits y1 y2 y3 y4 := by
    simp only [absoluteZeroYear]
    omega
  simp only [ParseMonthDate, ParseInLocation_ok m1 m2 y1 y2 y3 y4 hm1 hm2 hy1 hy2 hy3 hy4 h1 h2,
    Date_first_idem _ _ hz h1 h2]

theorem ParseMonthDate_ok (x : GoString) (h : IsMonthText x) :
    ParseMonthDate x = (Date (yearOfText x) (monthOfText x) 1 0 0 0 0 Location.UTC, none) := by
  obtain ⟨m1, m2, y1, y2, y3, y4, rfl, hm1, hm2, hy1, hy2, hy3, hy4, h1, h2⟩ := h
  exact ParseMonthDate_text m1 m2 y1 y2 y3 y4 hm1 hm2 hy1 hy2 hy3 hy4 h1 h2

theorem ParseMonthDate_shape (x : GoString) (h : (ParseMonthDate x).2 = none) : IsMonthText x := by
  apply ParseInLocation_shape
  unfold ParseMonthDate at h
  split at h
  · simp at h
  · rename_i t heq
    rw [heq]

theorem ParseMonthDate_accepts_iff (x : GoString) :
    (ParseMonthDate x).2 = none ↔ IsMonthText x :=
  ⟨ParseMonthDate_shape x, fun h => by rw [ParseMonthDate_ok x h]⟩

end usecase

namespace usecase

open time

theorem str_zero_month : str "01-0001" = [48, 49, 45, 48, 48, 48, 49] := by decide

theorem FormatMonthDate_text (m1 m2 y1 y2 y3 y4 : Nat)
    (hm1 : isDigitByte m1) (hm2 : isDigitByte m2) (hy1 : isDigitByte y1) (hy2 : isDigitByte y2)
    (hy3 : isDigitByte y3) (hy4 : isDigitByte y4)
    (h1 : 1 ≤ twoDigits m1 m2) (h2 : twoDigits m1 m2 ≤ 12)
    (hx : [m1, m2, 45, y1, y2, y3, y4] ≠ str "01-0001") :
    FormatMonthDate (Date (fourDigits y1 y2 y3 y4) (twoDigits m1 m2) 1 0 0 0 0 Location.UTC) =
      [m1, m2, 45, y1, y2, y3, y4] := by
  have hy := fourDigits_bounds y1 y2 y3 y4 hy1 hy2 hy3 hy4
  have hz : absoluteZeroYear ≤ fourDigits y1 y2 y3 y4 := by
    simp only [absoluteZeroYear]
    omega
  have hf := Date_first_fields _ _ hz h1 h2
  have hnz : (Date (fourDigits y1 y2 y3 y4) (twoDigits m1 m2) 1 0 0 0 0 Location.UTC).IsZero
      ≠ true := by
    intro hzero
    rw [Date_first_isZero _ _ hz h1 h2] at hzero
    obtain ⟨e1, e2⟩ := hzero
    apply hx
    rw [str_zero_month]
    clear hf hz hy hx h1 h2
    simp only [isDigitByte, fourDigits, twoDigits] at hm1 hm2 hy1 hy2 hy3 hy4 e1 e2
    have : m1 = 48 ∧ m2 = 49 ∧ y1 = 48 ∧ y2 = 48 ∧ y3 = 48 ∧ y4 = 49 := by omega
    simp only [this]
  generalize Date (fourDigits y1 y2 y3 y4) (twoDigits m1 m2) 1 0 0 0 0 Location.UTC = t at hf hnz
  unfold FormatMonthDate
  rw [if_neg hnz]
  unfold Time.Format MonthLayout
  simp only [Time.AppendFormat, List.foldl, Time.appendChunk]
  rw [hf.1, hf.2.1, appendInt_two _ m1 m2 hm1 hm2, appendInt_four _ y1 y2 y3 y4 hy1 hy2 hy3 hy4]
  rfl

end usecase

/-- C1 (as stated, refuted): `ParseMonthDate` accepts the text "01-0001", and
`FormatMonthDate` turns the result into the empty text, not into "01-0001". -/
theorem C1_round_trip_fails_at_year_one :
    (usecase.ParseMonthDate (str "01-0001")).2 = none ∧
    usecase.FormatMonthDate (usecase.ParseMonthDate (str "01-0001")).1 = [] ∧
    usecase.FormatMonthDate (usecase.ParseMonthDate (str "01-0001")).1 ≠ str "01-0001" := by
  decide

/-- C1 (amended): for every text `x` that `ParseMonthDate` accepts, other than
"01-0001", `FormatMonthDate (ParseMonthDate x)` is `x`. -/
theorem C1_round_trip (x : GoString) (h : (usecase.ParseMonthDate x).2 = none)
    (hx : x ≠ str "01-0001") :
    usecase.FormatMonthDate (usecase.ParseMonthDate x).1 = x := by
  obtain ⟨m1, m2, y1, y2, y3, y4, rfl, hm1, hm2, hy1, hy2, hy3, hy4, h1, h2⟩ :=
    usecase.ParseMonthDate_shape x h
  rw [usecase.ParseMonthDate_text m1 m2 y1 y2 y3 y4 hm1 hm2 hy1 hy2 hy3 hy4 h1 h2]
  exact usecase.FormatMonthDate_text m1 m2 y1 y2 y3 y4 hm1 hm2 hy1 hy2 hy3 hy4 h1 h2 hx

theorem C1_round_trip_witness :
    (usecase.ParseMonthDate (str "07-2025")).2 = none ∧ str "07-2025" ≠ str "01-0001" ∧
    usecase.FormatMonthDate (usecase.ParseMonthDate (str "07-2025")).1 = str "07-2025" :=
  ⟨by decide, by decide, C1_round_trip (str "07-2025") (by decide) (by decide)⟩

/-- C2: `ParseMonthDate` succeeds exactly on the texts made of two digits that
write a month from 01 to 12, a hyphen and four digits, with nothing before or
after; on every other text it returns the zero time and an error, as it does
on "13-2025", "2025-07", "7-2025", "" and "00-2025". -/
theorem C2_ParseMonthDate_accepts_exactly :
    (∀ x : GoString, (usecase.ParseMonthDate x).2 = none ↔
      ∃ m1 m2 y1 y2 y3 y4 : Nat,
        x = [m1, m2, 45, y1, y2, y3, y4] ∧
        isDigitByte m1 ∧ isDigitByte m2 ∧ isDigitByte y1 ∧ isDigitByte y2 ∧
        isDigitByte y3 ∧ isDigitByte y4 ∧
        1 ≤ twoDigits m1 m2 ∧ twoDigits m1 m2 ≤ 12) ∧
    (∀ x : GoString, (usecase.ParseMonthDate x).2 ≠ none →
      (usecase.ParseMonthDate x).1 = time.Time.zero) ∧
    (usecase.ParseMonthDate (str "13-2025")).2 ≠ none ∧
    (usecase.ParseMonthDate (str "2025-07")).2 ≠ none ∧
    (usecase.ParseMonthDate (str "7-2025")).2 ≠ none ∧
    (usecase.ParseMonthDate (str "")).2 ≠ none ∧
    (usecase.ParseMonthDate (str "00-2025")).2 ≠ none := by
  refine ⟨fun x => usecase.ParseMonthDate_accepts_iff x, ?_, by decide, by decide, by decide,
    by decide, by decide⟩
  intro x h
  unfold usecase.ParseMonthDate at h ⊢
  split
  · rfl
  · rename_i t heq
    rw [heq] at h
    simp at h

/-- C3: for every text that `ParseMonthDate` accepts, the time returned is in
UTC, its year and month are those written in the text, its day is 1, and its
hour, minute, second and nanosecond are 0. -/
theorem C3_ParseMonthDate_first_instant (x : GoString)
    (h : (usecase.ParseMonthDate x).2 = none) :
    (usecase.ParseMonthDate x).1.loc = time.Location.UTC ∧
    (usecase.ParseMonthDate x).1.Year = yearOfText x ∧
    (usecase.ParseMonthDate x).1.Month = monthOfText x ∧
    (usecase.ParseMonthDate x).1.Day = 1 ∧
    (usecase.ParseMonthDate x).1.Hour = 0 ∧
    (usecase.ParseMonthDate x).1.Minute = 0 ∧
    (usecase.ParseMonthDate x).1.Second = 0 ∧
    (usecase.ParseMonthDate x).1.Nanosecond = 0 := by
  have hs := usecase.ParseMonthDate_shape x h
  rw [usecase.ParseMonthDate_ok x hs]
  obtain ⟨m1, m2, y1, y2, y3, y4, rfl, hm1, hm2, hy1, hy2, hy3, hy4, h1, h2⟩ := hs
  have hy := time.fourDigits_bounds y1 y2 y3 y4 hy1 hy2 hy3 hy4
  have hz : time.absoluteZeroYear ≤ fourDigits y1 y2 y3 y4 := by
    simp only [time.absoluteZeroYear]
    omega
  have hf := time.Date_first_fields (fourDigits y1 y2 y3 y4) (twoDigits m1 m2) hz h1 h2
  have hc := time.Date_first_clock (fourDigits y1 y2 y3 y4) (twoDigits m1 m2) h1 h2
  exact ⟨hc.2.2.2.2, hf.1, hf.2.1, hf.2.2, hc.1, hc.2.1, hc.2.2.1, hc.2.2.2.1⟩

theorem C3_ParseMonthDate_first_instant_witness :
    (usecase.ParseMonthDate (str "07-2025")).2 = none ∧
    (usecase.ParseMonthDate (str "07-2025")).1.loc = time.Location.UTC ∧
    (usecase.ParseMonthDate (str "07-2025")).1.Year = 2025 ∧
    (usecase.ParseMonthDate (str "07-2025")).1.Month = 7 ∧
    (usecase.ParseMonthDate (str "07-2025")).1.Day = 1 ∧
    (usecase.ParseMonthDate (str "07-2025")).1.Hour = 0 ∧
    (usecase.ParseMonthDate (str "07-2025")).1.Minute = 0 ∧
    (usecase.ParseMonthDate (str "07-2025")).1.Second = 0 ∧
    (usecase.ParseMonthDate (str "07-2025")).1.Nanosecond = 0 :=
  ⟨by decide, C3_ParseMonthDate_first_instant (str "07-2025") (by decide)⟩

/-! ## The summary query -/

namespace postgres

open time

theorem monthAt_le (i j : Int) : (monthAt i).le (monthAt j) = decide (i ≤ j) := by
  simp only [monthAt, PgDate.le]
  rw [Bool.eq_iff_iff]
  simp only [Bool.or_eq_true, Bool.and_eq_true, decide_eq_true_eq, beq_iff_eq, le_refl, and_true]
  omega

theorem monthAt_addMonth (i : Int) : (monthAt i).addMonth = monthAt (i + 1) := by
  have hd : ∀ m y : Int, 1 ≤ m → m ≤ 12 → ¬ (1 > daysIn m y) := daysIn_ge
  simp only [monthAt, PgDate.addMonth]
  by_cases h : i % 12 + 1 + 1 > 12
  · simp only [h, if_true]
    have hm : (i % 12 + 1 + 1 - 1) % 12 + 1 = (i + 1) % 12 + 1 := by omega
    have hy : i / 12 + (i % 12 + 1 + 1 - 1) / 12 = (i + 1) / 12 := by omega
    simp only [hm, hy, hd ((i + 1) % 12 + 1) ((i + 1) / 12) (by omega) (by omega), if_false]
  · simp only [h, if_false]
    have hm : i % 12 + 1 + 1 = (i + 1) % 12 + 1 := by omega
    have hy : i / 12 = (i + 1) / 12 := by omega
    simp only [hm, hy, hd ((i + 1) % 12 + 1) ((i + 1) / 12) (by omega) (by omega), if_false]

theorem monthAt_monthIndex (y m : Int) (h1 : 1 ≤ m) (h2 : m ≤ 12) :
    monthAt (monthIndex y m) = { year := y, month := m, day := 1 } := by
  simp only [monthAt, monthIndex, PgDate.mk.injEq, and_true]
  omega

theorem generateSeriesLoop_monthAt (n : Nat) :
    ∀ i j : Int, (j < i ∨ (j - i + 1).toNat < n) →
      generateSeriesLoop n (monthAt i) (monthAt j) =
        (List.range (j - i + 1).toNat).map fun (k : Nat) => monthAt (i + (k : Int)) := by
  induction n with
  | zero =>
    intro i j h
    have : (j - i + 1).toNat = 0 := by omega
    simp [generateSeriesLoop, this]
  | succ n ih =>
    intro i j h
    by_cases hij : i ≤ j
    · have hlen : (j - i + 1).toNat = (j - (i + 1) + 1).toNat + 1 := by omega
      rw [generateSeriesLoop, monthAt_le, decide_eq_true hij, if_pos rfl, monthAt_addMonth,
        ih (i + 1) j (by omega), hlen, List.range_succ_eq_map]
      simp only [List.map_cons, List.map_map, Nat.cast_zero, add_zero, List.cons.injEq, true_and]
      apply List.map_congr_left
      intro k _
      simp only [Function.comp, Nat.cast_succ]
      congr 1
      omega
    · have : (j - i + 1).toNat = 0 := by omega
      simp [generateSeriesLoop, monthAt_le, hij, this]

theorem generateSeries_first (y1 m1 y2 m2 : Int) (h1 : 1 ≤ m1) (h1' : m1 ≤ 12) (h2 : 1 ≤ m2)
    (h2' : m2 ≤ 12) :
    generateSeries ⟨y1, m1, 1⟩ ⟨y2, m2, 1⟩ = monthsBetween y1 m1 y2 m2 := by
  rw [← monthAt_monthIndex y1 m1 h1 h1', ← monthAt_monthIndex y2 m2 h2 h2']
  unfold generateSeries monthsBetween
  rw [monthAt_monthIndex y1 m1 h1 h1', monthAt_monthIndex y2 m2 h2 h2']
  simp only []
  rw [← monthAt_monthIndex y1 m1 h1 h1', ← monthAt_monthIndex y2 m2 h2 h2']
  apply generateSeriesLoop_monthAt
  simp only [monthIndex]
  omega

theorem activeIn_eq (s : Row) (m : PgDate) : activeIn s m = joinCond s m := by
  cases h : s.end_date <;> simp [activeIn, joinCond, h]

theorem matchesFilter_eq (p3 : Option uuid.UUID) (p4 : Option GoString) (s : Row) :
    matchesFilter p3 p4 s = whereCond p3 p4 s := by
  cases p3 <;> cases p4 <;> simp [matchesFilter, whereCond]

theorem coalesceSum_eq (xs : List Int) : coalesceSum xs = xs.sum := by
  cases xs <;> simp [coalesceSum]

/-- The rows that the query adds up, month by month. -/
theorem summaryQuery_by_month (rows : List Row) (p1 p2 : PgDate) (p3 : Option uuid.UUID)
    (p4 : Option GoString) :
    summaryQuery rows p1 p2 p3 p4 =
      ((generateSeries p1 p2).map fun m =>
        (((rows.filter (matchesFilter p3 p4)).filter fun s => activeIn s m).map Row.price).sum).sum := by
  simp only [summaryQuery, coalesceSum_eq]
  generalize generateSeries p1 p2 = months
  induction months with
  | nil => simp
  | cons m tl ih =>
    simp only [List.flatMap_cons, List.filter_append, List.map_append, List.sum_append,
      List.map_cons, List.sum_cons, ih]
    congr 1
    simp only [List.filter_map, List.map_map, List.filter_filter]
    have hf : (fun a => ((fun ms : PgDate × Row => whereCond p3 p4 ms.2) ∘ fun s => (m, s)) a &&
        joinCond a m) = (fun a => activeIn a m && matchesFilter p3 p4 a) := by
      funext a
      simp [activeIn_eq, matchesFilter_eq, Bool.and_comm]
    rw [hf]
    rfl

/-- The same total, subscription by subscription: each one counts as many
times as there are months in which it is active. -/
theorem sum_by_month_eq_sum_by_row (months : List PgDate) (rows : List Row) :
    (months.map fun m => ((rows.filter fun s => activeIn s m).map Row.price).sum).sum =
      (rows.map fun s => s.price * (months.countP fun m => activeIn s m)).sum := by
  induction rows with
  | nil => simp
  | cons s tl ih =>
    have hstep : ∀ m, (((s :: tl).filter fun s => activeIn s m).map Row.price).sum =
        (if activeIn s m then s.price else 0) +
          ((tl.filter fun s => activeIn s m).map Row.price).sum := by
      intro m
      by_cases h : activeIn s m = true <;> simp [List.filter_cons, h]
    simp only [hstep, List.sum_map_add, ih, List.map_cons, List.sum_cons]
    congr 1
    clear hstep ih
    induction months with
    | nil => simp
    | cons m ms ihm =>
      by_cases h : activeIn s m = true
      · simp only [List.map_cons, List.sum_cons, h, if_true, ihm, List.countP_cons_of_pos]
        push_cast
        ring
      · simp only [List.map_cons, List.sum_cons, h, if_false, ihm, zero_add, Bool.false_eq_true]
        rw [List.countP_cons_of_neg]
        simpa using h

theorem ofTime_Date_first (y m : Int) (hy : absoluteZeroYear ≤ y) (hm1 : 1 ≤ m) (hm2 : m ≤ 12) :
    PgDate.ofTime (Date y m 1 0 0 0 0 Location.UTC) = { year := y, month := m, day := 1 } := by
  obtain ⟨h1, h2, h3⟩ := Date_first_fields y m hy hm1 hm2
  simp only [PgDate.ofTime, h1, h2, h3]

end postgres

/-- C4 (as stated, refuted): one stored subscription of price 2^62, active in
both months of the range 01-2025 to 02-2025, makes the sum over the months
2^63, which is beyond `int64`; the database answers, the bounds are first
instants of months in order, and `Summary` returns 0 and an error instead of
the sum. -/
theorem C4_Summary_fails_beyond_int64 :
    exampleLargeRepository.pool.failure = none ∧
    (exampleFilter 1 2).Start = (usecase.ParseMonthDate (str "01-2025")).1 ∧
    (exampleFilter 1 2).End = (usecase.ParseMonthDate (str "02-2025")).1 ∧
    (exampleFilter 1 2).End.Before (exampleFilter 1 2).Start = false ∧
    postgres.monthlyTotal exampleLargeRepository.pool.subscriptions none none
      (postgres.monthsBetween 2025 1 2025 2) = 9223372036854775808 ∧
    exampleLargeRepository.Summary (exampleFilter 1 2) =
      (0, some (GoError.errorfW "repo SummarySubscriptions: %w"
        (GoError.library "value out of range for int64"))) := by
  refine ⟨rfl, by decide, by decide, by decide, by decide, by decide⟩

/-- C4 (amended): with the database answering, and bounds that are the first
instants of month `m1` of year `y1` and of month `m2` of year `y2`, take the
sum, over every calendar month from the first to the second (both included,
one month at a time), of the prices of the subscriptions active in that month
that match the filters. This sum is the sum, over the matching subscriptions,
of the price times the number of those months in which the subscription is
active. When it is within the range of `int64`, `Summary` returns it with no
error; when it is beyond that range, `Summary` returns 0 and an error; and
when no matching subscription is active in any of the months, `Summary`
returns 0 with no error. -/
theorem C4_Summary_sums_active_months (r : postgres.SubscriptionRepository)
    (filter : usecase.SummaryFilter) (y1 m1 y2 m2 : Int)
    (hpool : r.pool.failure = none)
    (hy1 : 0 ≤ y1 ∧ y1 ≤ 9999) (hm1 : 1 ≤ m1 ∧ m1 ≤ 12)
    (hy2 : 0 ≤ y2 ∧ y2 ≤ 9999) (hm2 : 1 ≤ m2 ∧ m2 ≤ 12)
    (hstart : filter.Start = time.Date y1 m1 1 0 0 0 0 time.Location.UTC)
    (hend : filter.End = time.Date y2 m2 1 0 0 0 0 time.Location.UTC)
    (_hle : filter.End.Before filter.Start = false) :
    postgres.monthlyTotal r.pool.subscriptions filter.UserID filter.ServiceName
        (postgres.monthsBetween y1 m1 y2 m2) =
      ((r.pool.subscriptions.filter
          (postgres.matchesFilter filter.UserID filter.ServiceName)).map
        fun s => s.price *
          ((postgres.monthsBetween y1 m1 y2 m2).countP fun m => postgres.activeIn s m)).sum ∧
    (postgres.MinInt64 ≤ postgres.monthlyTotal r.pool.subscriptions filter.UserID
        filter.ServiceName (postgres.monthsBetween y1 m1 y2 m2) ∧
      postgres.monthlyTotal r.pool.subscriptions filter.UserID filter.ServiceName
        (postgres.monthsBetween y1 m1 y2 m2) ≤ postgres.MaxInt64 →
      r.Summary filter =
        (postgres.monthlyTotal r.pool.subscriptions filter.UserID filter.ServiceName
          (postgres.monthsBetween y1 m1 y2 m2), none)) ∧
    (¬ (postgres.MinInt64 ≤ postgres.monthlyTotal r.pool.subscriptions filter.UserID
        filter.ServiceName (postgres.monthsBetween y1 m1 y2 m2) ∧
      postgres.monthlyTotal r.pool.subscriptions filter.UserID filter.ServiceName
        (postgres.monthsBetween y1 m1 y2 m2) ≤ postgres.MaxInt64) →
      r.Summary filter =
        (0, some (GoError.errorfW "repo SummarySubscriptions: %w"
          (GoError.library "value out of range for int64")))) ∧
    ((∀ s ∈ r.pool.subscriptions, postgres.matchesFilter filter.UserID filter.ServiceName s = true →
        ∀ m ∈ postgres.monthsBetween y1 m1 y2 m2, postgres.activeIn s m = false) →
      r.Summary filter = (0, none)) := by
  have hz1 : time.absoluteZeroYear ≤ y1 := by
    simp only [time.absoluteZeroYear]
    omega
  have hz2 : time.absoluteZeroYear ≤ y2 := by
    simp only [time.absoluteZeroYear]
    omega
  have hq : postgres.summaryQuery r.pool.subscriptions (postgres.PgDate.ofTime filter.Start)
      (postgres.PgDate.ofTime filter.End) filter.UserID filter.ServiceName =
      postgres.monthlyTotal r.pool.subscriptions filter.UserID filter.ServiceName
        (postgres.monthsBetween y1 m1 y2 m2) := by
    simp only [hstart, hend, postgres.ofTime_Date_first y1 m1 hz1 hm1.1 hm1.2,
      postgres.ofTime_Date_first y2 m2 hz2 hm2.1 hm2.2, postgres.summaryQuery_by_month,
      postgres.generateSeries_first y1 m1 y2 m2 hm1.1 hm1.2 hm2.1 hm2.2, postgres.monthlyTotal]
  have hrow : postgres.monthlyTotal r.pool.subscriptions filter.UserID filter.ServiceName
        (postgres.monthsBetween y1 m1 y2 m2) = _ :=
    postgres.sum_by_month_eq_sum_by_row (postgres.monthsBetween y1 m1 y2 m2)
      (r.pool.subscriptions.filter (postgres.matchesFilter filter.UserID filter.ServiceName))
  have hfit : ∀ hin : postgres.MinInt64 ≤ postgres.monthlyTotal r.pool.subscriptions
        filter.UserID filter.ServiceName (postgres.monthsBetween y1 m1 y2 m2) ∧
      postgres.monthlyTotal r.pool.subscriptions filter.UserID filter.ServiceName
        (postgres.monthsBetween y1 m1 y2 m2) ≤ postgres.MaxInt64,
      r.Summary filter =
        (postgres.monthlyTotal r.pool.subscriptions filter.UserID filter.ServiceName
          (postgres.monthsBetween y1 m1 y2 m2), none) := by
    intro hin
    simp only [postgres.SubscriptionRepository.Summary, hpool, hq, postgres.scanInt64, hin,
      and_self, if_true]
  refine ⟨hrow, hfit, ?_, ?_⟩
  · intro hout
    simp only [postgres.SubscriptionRepository.Summary, hpool, hq, postgres.scanInt64, hout,
      if_false]
  · intro hnone
    have hzero : postgres.monthlyTotal r.pool.subscriptions filter.UserID filter.ServiceName
        (postgres.monthsBetween y1 m1 y2 m2) = 0 := by
      rw [hrow]
      apply List.sum_eq_zero
      intro x hx
      simp only [List.mem_map, List.mem_filter] at hx
      obtain ⟨s, ⟨hs, hmatch⟩, rfl⟩ := hx
      have hc : (postgres.monthsBetween y1 m1 y2 m2).countP
          (fun m => postgres.activeIn s m) = 0 := by
        rw [List.countP_eq_zero]
        intro m hm
        simp [hnone s hs hmatch m hm]
      simp [hc]
    have := hfit (by rw [hzero]; decide)
    rw [this, hzero]

theorem C4_Summary_sums_active_months_witness :
    exampleRepository.pool.failure = none ∧
    (exampleFilter 1 3).Start = (usecase.ParseMonthDate (str "01-2025")).1 ∧
    (exampleFilter 1 3).End = (usecase.ParseMonthDate (str "03-2025")).1 ∧
    (exampleFilter 1 3).End.Before (exampleFilter 1 3).Start = false ∧
    postgres.monthlyTotal exampleRepository.pool.subscriptions none none
      (postgres.monthsBetween 2025 1 2025 3) = 300 ∧
    exampleRepository.Summary (exampleFilter 1 3) = (300, none) ∧
    exampleRepository.Summary (exampleFilter 4 6) = (0, none) :=
  ⟨rfl, by decide, by decide, by decide, by decide,
    ((C4_Summary_sums_active_months exampleRepository (exampleFilter 1 3) 2025 1 2025 3 rfl
      (by decide) (by decide) (by decide) (by decide) rfl rfl (by decide)).2.1
        (by decide)).trans (by decide),
    by decide⟩

/-! ## The validator -/

namespace usecase

open time

/-- `validateInput` returns the error of the first check that fails, with the
zero record, and the validated record when no check fails. -/
theorem validateInput_eq (s : Service) (input : SubscriptionInput) :
    s.validateInput input =
      match firstFailure (checksInOrder input) with
      | some err => (domain.Subscription.zero, some err)
      | none => (validatedRecord input, none) := by
  unfold Service.validateInput
  simp only [firstFailure, checksInOrder, List.findSome?, id, validatedRecord]
  by_cases h1 : (strings.TrimSpace input.ServiceName).length < 3
  · simp [checkServiceName, h1, errServiceName]
  · simp only [checkServiceName, h1, if_false]
    by_cases h2 : input.Price ≤ 0
    · simp [checkPrice, h2, errPrice]
    · simp only [checkPrice, h2, if_false]
      cases h3 : uuid.Parse input.UserID with
      | error e => simp [checkUserID, h3, errUserID]
      | ok uid =>
        simp only [checkUserID, h3, checkUserIDNotNil]
        rcases h4 : ParseMonthDate input.StartDate with ⟨t, _ | err⟩
        · simp only [checkStartDate, h4, Option.map_none', checkStartNotZero, true_and]
          cases h5 : input.EndDate with
          | none =>
            simp only [checkEndDate, checkEndNotBeforeStart, endProvided, h5, Option.filter,
              Option.bind]
            by_cases h7 : uid = uuid.Nil
            · simp [Service.validateDomain, h7, errUserIDRequired]
            · by_cases h8 : t.IsZero = true
              · simp [Service.validateDomain, h7, h8, errStartRequired]
              · simp [Service.validateDomain, h7, h8]
          | some e =>
            by_cases hb : strings.TrimSpace e = []
            · simp only [checkEndDate, checkEndNotBeforeStart, endProvided, h5, Option.filter,
                Option.bind, hb, ne_eq, not_true_eq_false, decide_False, Bool.false_eq_true,
                if_false]
              by_cases h7 : uid = uuid.Nil
              · simp [Service.validateDomain, h7, errUserIDRequired]
              · by_cases h8 : t.IsZero = true
                · simp [Service.validateDomain, h7, h8, errStartRequired]
                · simp [Service.validateDomain, h7, h8]
            · simp only [checkEndDate, checkEndNotBeforeStart, endProvided, h5, Option.filter,
                Option.bind, hb, ne_eq, not_false_eq_true, decide_True, if_true, h4]
              rcases h6 : ParseMonthDate e with ⟨te, _ | err⟩
              · simp only [Option.map_none', true_and]
                by_cases hlt : te.Before t = true
                · simp [hlt, errEndBeforeStart]
                · by_cases h7 : uid = uuid.Nil
                  · simp [Service.validateDomain, h7, errUserIDRequired, hlt]
                  · by_cases h8 : t.IsZero = true
                    · simp [Service.validateDomain, h7, h8, errStartRequired, hlt]
                    · simp [Service.validateDomain, h7, h8, hlt, h6]
              · simp [errDate]
        · simp [checkStartDate, h4, errDate]

theorem check_invalidArgument (input : SubscriptionInput) (c : Option GoError)
    (hc : c ∈ checksInOrder input) (err : GoError) (h : c = some err) :
    errorsIs err Sentinel.ErrInvalidArgument = true := by
  subst h
  simp only [checksInOrder, List.mem_cons, List.mem_singleton, List.not_mem_nil, or_false] at hc
  rcases hc with h | h | h | h | h | h | h | h
  · simp only [checkServiceName] at h
    split at h
    · cases h; rfl
    · cases h
  · simp only [checkPrice] at h
    split at h
    · cases h; rfl
    · cases h
  · simp only [checkUserID] at h
    split at h
    · cases h; rfl
    · cases h
  · simp only [checkStartDate] at h
    cases h' : (ParseMonthDate input.StartDate).2 with
    | none => rw [h'] at h; cases h
    | some e => rw [h'] at h; cases h; rfl
  · simp only [checkEndDate] at h
    cases h1 : endProvided input with
    | none => rw [h1] at h; cases h
    | some e =>
      rw [h1] at h
      simp only [Option.bind] at h
      cases h' : (ParseMonthDate e).2 with
      | none => rw [h'] at h; cases h
      | some e => rw [h'] at h; cases h; rfl
  · simp only [checkEndNotBeforeStart] at h
    cases h1 : endProvided input with
    | none => rw [h1] at h; cases h
    | some e =>
      rw [h1] at h
      simp only [Option.bind] at h
      split at h
      · cases h; rfl
      · cases h
  · simp only [checkUserIDNotNil] at h
    split at h
    · split at h
      · cases h; rfl
      · cases h
    · cases h
  · simp only [checkStartNotZero] at h
    split at h
    · cases h; rfl
    · cases h

/-- Every error of `validateInput` is classified `ErrInvalidArgument`, and
comes with the zero record. -/
theorem validateInput_error (s : Service) (input : SubscriptionInput) (err : GoError)
    (h : (s.validateInput input).2 = some err) :
    s.validateInput input = (domain.Subscription.zero, some err) ∧
    errorsIs err Sentinel.ErrInvalidArgument = true := by
  rw [validateInput_eq] at h ⊢
  cases hf : firstFailure (checksInOrder input) with
  | none => rw [hf] at h; cases h
  | some e =>
    rw [hf] at h
    simp only [Option.some.injEq] at h
    subst h
    refine ⟨rfl, ?_⟩
    obtain ⟨c, hc, hce⟩ := List.exists_of_findSome?_eq_some hf
    exact check_invalidArgument input c hc e hce

end usecase

/-! ## Order of the months -/

namespace time

theorem daysSinceEpoch_succ (y : Int) (hy : absoluteZeroYear ≤ y) :
    daysSinceEpoch y + 365 ≤ daysSinceEpoch (y + 1) := by
  obtain ⟨a1, a2, a3, a4, ha1, ha2, ha2', ha3, ha3', ha4, ha4', hY, hD⟩ := daysSinceEpoch_spec y hy
  obtain ⟨b1, b2, b3, b4, hb1, hb2, hb2', hb3, hb3', hb4, hb4', hY', hD'⟩ :=
    daysSinceEpoch_spec (y + 1) (by omega)
  rw [hD, hD']
  omega

theorem daysSinceEpoch_mono (y : Int) (hy : absoluteZeroYear ≤ y) (k : Nat) :
    daysSinceEpoch y + 365 * k ≤ daysSinceEpoch (y + k) := by
  induction k with
  | zero => simp
  | succ k ih =>
    have h := daysSinceEpoch_succ (y + k) (by omega)
    push_cast
    rw [← add_assoc]
    omega

theorem monthStart_lt (y m m' : Int) (h1 : 1 ≤ m) (h2 : m < m') (h3 : m' ≤ 12) :
    monthStart y m < monthStart y m' := by
  have hm : m = 1 ∨ m = 2 ∨ m = 3 ∨ m = 4 ∨ m = 5 ∨ m = 6 ∨ m = 7 ∨ m = 8 ∨ m = 9 ∨ m = 10 ∨
      m = 11 := by omega
  have hm' : m' = 2 ∨ m' = 3 ∨ m' = 4 ∨ m' = 5 ∨ m' = 6 ∨ m' = 7 ∨ m' = 8 ∨ m' = 9 ∨
      m' = 10 ∨ m' = 11 ∨ m' = 12 := by omega
  cases hl : isLeap y <;>
    rcases hm with h | h | h | h | h | h | h | h | h | h | h <;> subst h <;>
    rcases hm' with h | h | h | h | h | h | h | h | h | h | h <;> subst h <;>
    first
      | omega
      | simp [monthStart, hl, daysBefore]

theorem firstDay_lt (y m y' m' : Int) (hy : absoluteZeroYear ≤ y) (h1 : 1 ≤ m) (h2 : m ≤ 12)
    (h1' : 1 ≤ m') (h2' : m' ≤ 12) (h : y < y' ∨ (y = y' ∧ m < m')) :
    firstDay y m < firstDay y' m' := by
  have hb := monthStart_bound y m h1 h2
  have hb' := monthStart_bound y' m' h1' h2'
  have hb1 : monthStart y m < 365 := by
    have hm : m = 1 ∨ m = 2 ∨ m = 3 ∨ m = 4 ∨ m = 5 ∨ m = 6 ∨ m = 7 ∨ m = 8 ∨ m = 9 ∨ m = 10 ∨
        m = 11 ∨ m = 12 := by omega
    cases hl : isLeap y <;>
      rcases hm with h | h | h | h | h | h | h | h | h | h | h | h <;> subst h <;>
      simp [monthStart, hl, daysBefore]
  unfold firstDay
  rcases h with h | ⟨rfl, h⟩
  · obtain ⟨k, hk⟩ : ∃ k : Nat, y' = y + 1 + k := ⟨(y' - y - 1).toNat, by omega⟩
    have hs := daysSinceEpoch_succ y hy
    have hmono := daysSinceEpoch_mono (y + 1) (by omega) k
    rw [hk]
    rw [hk] at hb'
    omega
  · have := monthStart_lt y m m' h1 h h2'
    omega

theorem Date_first_Before (y m y' m' : Int) (hy : absoluteZeroYear ≤ y)
    (hy' : absoluteZeroYear ≤ y') (h1 : 1 ≤ m) (h2 : m ≤ 12) (h1' : 1 ≤ m') (h2' : m' ≤ 12) :
    (Date y m 1 0 0 0 0 Location.UTC).Before (Date y' m' 1 0 0 0 0 Location.UTC) = true ↔
      (y < y' ∨ (y = y' ∧ m < m')) := by
  rw [Date_first y m h1 h2, Date_first y' m' h1' h2']
  simp only [Time.Before, Bool.or_eq_true, decide_eq_true_eq, Bool.and_eq_true, beq_iff_eq,
    lt_self_iff_false, and_false, or_false]
  constructor
  · intro h
    by_contra hn
    have hge : y' < y ∨ (y' = y ∧ m' < m) ∨ (y' = y ∧ m' = m) := by omega
    rcases hge with hge | hge | ⟨rfl, rfl⟩
    · have := firstDay_lt y' m' y m hy' h1' h2' h1 h2 (Or.inl hge)
      unfold firstDay at this
      omega
    · have := firstDay_lt y' m' y m hy' h1' h2' h1 h2 (Or.inr hge)
      unfold firstDay at this
      omega
    · omega
  · intro h
    have := firstDay_lt y m y' m' hy h1 h2 h1' h2' h
    unfold firstDay at this
    omega

end time

/-! ## The texts that `uuid.Parse` takes -/

namespace uuid

theorem xvalue_ne (c : Nat) : (xvalue c != 255) = isHexByte c := by
  unfold xvalue isHexByte
  by_cases h1 : 48 ≤ c ∧ c ≤ 57
  · have : c - 48 ≠ 255 := by omega
    simp [h1, this]
  · by_cases h2 : 65 ≤ c ∧ c ≤ 70
    · have : c - 55 ≠ 255 := by omega
      simp [h1, h2, this]
    · by_cases h3 : 97 ≤ c ∧ c ≤ 102
      · have : c - 87 ≠ 255 := by omega
        simp [h1, h2, h3, this]
      · have e1 : (decide (48 ≤ c) && decide (c ≤ 57)) = false := by simpa using h1
        have e2 : (decide (65 ≤ c) && decide (c ≤ 70)) = false := by simpa using h2
        have e3 : (decide (97 ≤ c) && decide (c ≤ 102)) = false := by simpa using h3
        simp [h1, h2, h3, e1, e2, e3]

/-- `decodeAt` succeeds exactly when every pair it reads is hexadecimal. -/
theorem decodeAt_isSome (s : GoString) (offs : List Nat) :
    (decodeAt s offs).isSome =
      offs.all fun x => isHexByte (s.getD x 0) && isHexByte (s.getD (x + 1) 0) := by
  induction offs with
  | nil => rfl
  | cons x xs ih =>
    simp only [decodeAt, xtob, List.all_cons, ← ih, xvalue_ne]
    cases h : isHexByte (s.getD x 0) && isHexByte (s.getD (x + 1) 0) with
    | false => simp
    | true => cases hd : decodeAt s xs <;> simp

theorem hyphenated_offsets (t : GoString) :
    isHyphenatedForm t =
      (t.getD 8 0 == 45 && t.getD 13 0 == 45 && t.getD 18 0 == 45 && t.getD 23 0 == 45 &&
        [0, 2, 4, 6, 9, 11, 14, 16, 19, 21, 24, 26, 28, 30, 32, 34].all fun x =>
          isHexByte (t.getD x 0) && isHexByte (t.getD (x + 1) 0)) := by
  unfold isHyphenatedForm
  rw [Bool.eq_iff_iff]
  simp only [List.all_eq_true, List.mem_range, Bool.and_eq_true, beq_iff_eq, List.mem_cons,
    List.mem_singleton, List.not_mem_nil, or_false]
  constructor
  · intro h
    refine ⟨⟨⟨⟨?_, ?_⟩, ?_⟩, ?_⟩, ?_⟩
    · simpa using h 8 (by omega)
    · simpa using h 13 (by omega)
    · simpa using h 18 (by omega)
    · simpa using h 23 (by omega)
    · intro x hx
      have h1 := h x (by omega)
      have h2 := h (x + 1) (by omega)
      rw [if_neg (by omega)] at h1 h2
      exact ⟨h1, h2⟩
  · rintro ⟨⟨⟨⟨h8, h13⟩, h18⟩, h23⟩, hx⟩ i hi
    by_cases hh : i = 8 ∨ i = 13 ∨ i = 18 ∨ i = 23
    · rw [if_pos hh]
      rcases hh with rfl | rfl | rfl | rfl
      · exact beq_iff_eq.mpr h8
      · exact beq_iff_eq.mpr h13
      · exact beq_iff_eq.mpr h18
      · exact beq_iff_eq.mpr h23
    · rw [if_neg hh]
      by_cases hev : i = 0 ∨ i = 2 ∨ i = 4 ∨ i = 6 ∨ i = 9 ∨ i = 11 ∨ i = 14 ∨ i = 16 ∨ i = 19 ∨
          i = 21 ∨ i = 24 ∨ i = 26 ∨ i = 28 ∨ i = 30 ∨ i = 32 ∨ i = 34
      · exact (hx i hev).1
      · have hpos : 1 ≤ i := by omega
        have := (hx (i - 1) (by omega)).2
        rwa [Nat.sub_add_cancel hpos] at this

theorem raw_offsets (s : GoString) :
    (((List.range 16).map (· * 2)).all fun x =>
        isHexByte (s.getD x 0) && isHexByte (s.getD (x + 1) 0)) =
      (List.range 32).all fun i => isHexByte (s.getD i 0) := by
  rw [Bool.eq_iff_iff]
  simp only [List.all_eq_true, List.mem_map, List.mem_range, Bool.and_eq_true]
  constructor
  · intro h i hi
    by_cases hev : i % 2 = 0
    · have := (h i ⟨i / 2, by omega, by omega⟩).1
      exact this
    · have := (h (i - 1) ⟨i / 2, by omega, by omega⟩).2
      rwa [Nat.sub_add_cancel (by omega)] at this
  · rintro h x ⟨k, hk, rfl⟩
    exact ⟨h _ (by omega), h _ (by omega)⟩

/-- The texts that `Parse` takes, form by form. -/
theorem isParsedText_iff (s : GoString) :
    isParsedText s = true ↔
      (s.length = 36 ∧ isHyphenatedForm s = true) ∨
      (s.length = 45 ∧ equalFoldLower (s.take 9) (str "urn:uuid:") = true ∧
        isHyphenatedForm (s.drop 9) = true) ∨
      (s.length = 38 ∧ isHyphenatedForm (s.drop 1) = true) ∨
      (s.length = 32 ∧ ((List.range 32).all fun i => isHexByte (s.getD i 0)) = true) := by
  simp only [isParsedText, isValidText, Bool.or_eq_true, Bool.and_eq_true, beq_iff_eq]
  tauto

theorem hyphenated_ok (t : GoString) :
    (∃ u, (if t.getD 8 0 ≠ 45 ∨ t.getD 13 0 ≠ 45 ∨ t.getD 18 0 ≠ 45 ∨ t.getD 23 0 ≠ 45 then
        (Except.error (GoError.library "invalid UUID format") : Except GoError UUID)
      else
        match decodeAt t [0, 2, 4, 6, 9, 11, 14, 16, 19, 21, 24, 26, 28, 30, 32, 34] with
        | none => Except.error (GoError.library "invalid UUID format")
        | some u => Except.ok u) = Except.ok u) ↔ isHyphenatedForm t = true := by
  rw [hyphenated_offsets, ← decodeAt_isSome]
  simp only [Bool.and_eq_true, beq_iff_eq]
  by_cases hh : t.getD 8 0 ≠ 45 ∨ t.getD 13 0 ≠ 45 ∨ t.getD 18 0 ≠ 45 ∨ t.getD 23 0 ≠ 45
  · rw [if_pos hh]
    constructor
    · rintro ⟨u, hu⟩
      cases hu
    · rintro ⟨⟨⟨⟨h8, h13⟩, h18⟩, h23⟩, _⟩
      exfalso
      rcases hh with h | h | h | h
      · exact h h8
      · exact h h13
      · exact h h18
      · exact h h23
  · rw [if_neg hh]
    have hh' : t.getD 8 0 = 45 ∧ t.getD 13 0 = 45 ∧ t.getD 18 0 = 45 ∧ t.getD 23 0 = 45 := by
      simp only [ne_eq, not_or, not_not] at hh
      exact hh
    cases hd : decodeAt t [0, 2, 4, 6, 9, 11, 14, 16, 19, 21, 24, 26, 28, 30, 32, 34] with
    | none =>
      simp only [Option.isSome_none, Bool.false_eq_true, and_false, iff_false]
      rintro ⟨u, hu⟩
      cases hu
    | some u =>
      simp only [Option.isSome_some, and_true]
      exact ⟨fun _ => ⟨⟨⟨hh'.1, hh'.2.1⟩, hh'.2.2.1⟩, hh'.2.2.2⟩, fun _ => ⟨u, rfl⟩⟩

/-- `Parse` takes a text exactly when it has one of the four forms, the braces
of the third one being any two bytes. -/
theorem Parse_ok_iff (s : GoString) :
    (∃ u, Parse s = Except.ok u) ↔ isParsedText s = true := by
  rw [isParsedText_iff]
  unfold Parse
  simp only []
  by_cases h36 : s.length = 36
  · rw [if_pos h36]
    refine Iff.trans (hyphenated_ok s) ?_
    simp [h36]
  · rw [if_neg h36]
    by_cases h45 : s.length = 36 + 9
    · rw [if_pos h45]
      have h45' : s.length = 45 := h45
      cases hf : equalFoldLower (s.take 9) (str "urn:uuid:") with
      | false =>
        simp only [Bool.not_false, if_true, h45', Bool.false_eq_true, false_and, and_false]
        simp
      | true =>
        simp only [Bool.not_true, Bool.false_eq_true, if_false]
        refine Iff.trans (hyphenated_ok (s.drop 9)) ?_
        simp [h45']
    · rw [if_neg h45]
      have h45' : s.length ≠ 45 := h45
      by_cases h38 : s.length = 36 + 2
      · rw [if_pos h38]
        have h38' : s.length = 38 := h38
        refine Iff.trans (hyphenated_ok (s.drop 1)) ?_
        simp [h38']
      · rw [if_neg h38]
        have h38' : s.length ≠ 38 := h38
        by_cases h32 : s.length = 32
        · rw [if_pos h32, ← raw_offsets, ← decodeAt_isSome]
          cases hd : decodeAt s ((List.range 16).map (· * 2)) with
          | none => simp [h32]
          | some u => simp [h32]
        · rw [if_neg h32]
          simp [h36, h45', h38', h32]

end uuid

/-! ## The service and the validator: the claims -/

open time usecase

/-- C5: `Service.Summary` returns total 0 and an error classified
`ErrInvalidArgument`, without any call to the repository, when `Start` is zero,
`End` is zero, or `End` is before `Start`; for every other filter it calls
`Repository.Summary` once, with the same filter, and returns the total of
the repository, or total 0 with the error of the repository unchanged. -/
theorem C5_Summary_validates_bounds (s : Service) (filter : SummaryFilter) :
    ((filter.Start.IsZero = true ∨ filter.End.IsZero = true ∨
        filter.End.Before filter.Start = true) →
      ∃ err, s.Summary filter = ((0, some err), []) ∧
        errorsIs err Sentinel.ErrInvalidArgument = true) ∧
    (¬ (filter.Start.IsZero = true ∨ filter.End.IsZero = true ∨
        filter.End.Before filter.Start = true) →
      (s.Summary filter).2.filter Event.isRepoCall = [Event.repoSummary filter] ∧
      (∀ total, s.repo.Summary filter = Except.ok total →
        (s.Summary filter).1 = (total, none)) ∧
      (∀ err, s.repo.Summary filter = Except.error err →
        (s.Summary filter).1 = (0, some err))) := by
  constructor
  · intro h
    by_cases hz : (filter.Start.IsZero || filter.End.IsZero) = true
    · exact ⟨GoError.errorfW "%w: start and end are required" domain.ErrInvalidArgument,
        by simp only [Service.Summary, hz, if_true], rfl⟩
    · have hb : filter.End.Before filter.Start = true := by
        rcases h with h | h | h
        · simp [h] at hz
        · simp [h] at hz
        · exact h
      exact ⟨GoError.errorfW "%w: end must be after start" domain.ErrInvalidArgument,
        by simp [Service.Summary, hz, hb], rfl⟩
  · intro h
    have hz : ¬ (filter.Start.IsZero || filter.End.IsZero) = true := by
      intro hz
      simp only [Bool.or_eq_true] at hz
      tauto
    have hb : ¬ filter.End.Before filter.Start = true := by tauto
    simp only [Service.Summary, hz, hb, if_false]
    cases hr : s.repo.Summary filter <;> simp [Event.isRepoCall]

theorem C5_Summary_validates_bounds_witness :
    ¬ ((SummaryFilter.mk none none (Date 2025 7 1 0 0 0 0 Location.UTC)
          (Date 2025 7 1 0 0 0 0 Location.UTC)).Start.IsZero = true ∨
        (SummaryFilter.mk none none (Date 2025 7 1 0 0 0 0 Location.UTC)
          (Date 2025 7 1 0 0 0 0 Location.UTC)).End.IsZero = true ∨
        (SummaryFilter.mk none none (Date 2025 7 1 0 0 0 0 Location.UTC)
          (Date 2025 7 1 0 0 0 0 Location.UTC)).End.Before
          (SummaryFilter.mk none none (Date 2025 7 1 0 0 0 0 Location.UTC)
            (Date 2025 7 1 0 0 0 0 Location.UTC)).Start = true) ∧
    (exampleService.Summary (SummaryFilter.mk none none (Date 2025 7 1 0 0 0 0 Location.UTC)
      (Date 2025 7 1 0 0 0 0 Location.UTC))).1 = (42, none) ∧
    (∃ err, exampleService.Summary (SummaryFilter.mk none none Time.zero
        (Date 2025 7 1 0 0 0 0 Location.UTC)) = ((0, some err), []) ∧
      errorsIs err Sentinel.ErrInvalidArgument = true) :=
  ⟨by decide,
    ((C5_Summary_validates_bounds exampleService (SummaryFilter.mk none none
      (Date 2025 7 1 0 0 0 0 Location.UTC) (Date 2025 7 1 0 0 0 0 Location.UTC))).2
        (by decide)).2.1 42 rfl,
    (C5_Summary_validates_bounds exampleService (SummaryFilter.mk none none Time.zero
      (Date 2025 7 1 0 0 0 0 Location.UTC))).1 (Or.inl (by decide))⟩

/-- C6 (the code at the failing input): the name "éé" has 2 characters and 4
bytes; trimming leaves it as it is, and `validateInput` accepts the input. -/
theorem C6_two_character_name_accepted (s : Service) :
    "éé".length = 2 ∧
    strings.TrimSpace (str "éé") = str "éé" ∧
    (str "éé").length = 4 ∧
    (s.validateInput { exampleInput with ServiceName := str "éé" }).2 = none := by
  refine ⟨by decide, by decide, by decide, ?_⟩
  rw [validateInput_eq]
  have h : firstFailure (checksInOrder { exampleInput with ServiceName := str "éé" }) = none := by
    decide
  rw [h]

/-- C7: when the service name is acceptable, `validateInput` fails with the
price error, classified `ErrInvalidArgument`, for every price that is zero or
negative, and never fails with the price error for a price of 1 or more. -/
theorem C7_price_must_be_positive (s : Service) (input : SubscriptionInput)
    (hname : 3 ≤ (strings.TrimSpace input.ServiceName).length) :
    (input.Price ≤ 0 →
      s.validateInput input = (domain.Subscription.zero, some errPrice) ∧
      errorsIs errPrice Sentinel.ErrInvalidArgument = true) ∧
    (1 ≤ input.Price → (s.validateInput input).2 ≠ some errPrice) := by
  have h1 : checkServiceName input = none := by
    simp only [checkServiceName]
    rw [if_neg (by omega)]
  constructor
  · intro hp
    refine ⟨?_, rfl⟩
    rw [validateInput_eq]
    simp [firstFailure, checksInOrder, h1, checkPrice, hp]
  · intro hp hcontra
    rw [validateInput_eq] at hcontra
    cases hf : firstFailure (checksInOrder input) with
    | none => rw [hf] at hcontra; cases hcontra
    | some e =>
      rw [hf] at hcontra
      simp only [Option.some.injEq] at hcontra
      subst hcontra
      obtain ⟨c, hc, hce⟩ := List.exists_of_findSome?_eq_some hf
      simp only [id] at hce
      subst hce
      simp only [checksInOrder, List.mem_cons, List.mem_singleton, List.not_mem_nil,
        or_false] at hc
      rcases hc with h | h | h | h | h | h | h | h
      · rw [h1] at h; cases h
      · simp only [checkPrice] at h
        rw [if_neg (by omega)] at h
        cases h
      · simp only [checkUserID] at h
        split at h
        · simp [errPrice, errUserID] at h
        · cases h
      · simp only [checkStartDate] at h
        cases h' : (ParseMonthDate input.StartDate).2 with
        | none => rw [h'] at h; cases h
        | some e => rw [h'] at h; simp [errPrice, errDate] at h
      · simp only [checkEndDate] at h
        cases h2 : endProvided input with
        | none => rw [h2] at h; cases h
        | some e =>
          rw [h2] at h
          simp only [Option.bind] at h
          cases h' : (ParseMonthDate e).2 with
          | none => rw [h'] at h; cases h
          | some e => rw [h'] at h; simp [errPrice, errDate] at h
      · simp only [checkEndNotBeforeStart] at h
        cases h2 : endProvided input with
        | none => rw [h2] at h; cases h
        | some e =>
          rw [h2] at h
          simp only [Option.bind] at h
          split at h
          · simp [errPrice, errEndBeforeStart] at h
          · cases h
      · simp only [checkUserIDNotNil] at h
        split at h
        · split at h
          · simp [errPrice, errUserIDRequired] at h
          · cases h
        · cases h
      · simp only [checkStartNotZero] at h
        split at h
        · simp [errPrice, errStartRequired] at h
        · cases h

theorem C7_price_must_be_positive_witness :
    3 ≤ (strings.TrimSpace ({ exampleInput with Price := 0 } : SubscriptionInput).ServiceName).length ∧
    (exampleService.validateInput { exampleInput with Price := 0 } =
        (domain.Subscription.zero, some errPrice) ∧
      errorsIs errPrice Sentinel.ErrInvalidArgument = true) ∧
    (exampleService.validateInput { exampleInput with Price := -5 }).2 = some errPrice ∧
    (exampleService.validateInput { exampleInput with Price := 1 }).2 = none :=
  ⟨by decide,
    (C7_price_must_be_positive exampleService { exampleInput with Price := 0 } (by decide)).1
      (by decide),
    by decide, by decide⟩

/-- C9 (as stated, refuted): the text of 38 bytes made of a valid identifier
between an `x` and a `y` is no valid identifier in any of the four forms, yet
`uuid.Parse` takes it, `validateInput` accepts the input, and `Create` calls
the repository. -/
theorem C9_invalid_user_id_reaches_repository :
    uuid.isValidText exampleUnbracedInput.UserID = false ∧
    uuid.Parse exampleUnbracedInput.UserID =
      Except.ok [96, 96, 31, 238, 43, 241, 71, 33, 174, 111, 118, 54, 231, 154, 12, 186] ∧
    exampleService.validateInput exampleUnbracedInput =
      (validatedRecord exampleUnbracedInput, none) ∧
    exampleService.Create (List.replicate 16 7) exampleUnbracedInput =
      (({ validatedRecord exampleUnbracedInput with ID := List.replicate 16 7 }, none),
        [Event.repoCreate
          { validatedRecord exampleUnbracedInput with ID := List.replicate 16 7 }]) := by
  refine ⟨by decide, rfl, by decide, by decide⟩

/-- C9 (amended): for every input that `validateInput` rejects, `Create`
returns the zero record and the error of the validator, classified
`ErrInvalidArgument`, and makes no call to the repository; and `validateInput`
rejects every input whose `user_id` is one that `uuid.Parse` refuses, that is,
every text that is neither a valid identifier in one of the four forms nor a
text of 38 bytes with the hyphenated form from its second byte on. -/
theorem C9_Create_rejects_without_repository (s : Service) (newID : uuid.UUID)
    (input : SubscriptionInput) :
    (∀ err, (s.validateInput input).2 = some err →
      s.Create newID input = ((domain.Subscription.zero, some err), []) ∧
      errorsIs err Sentinel.ErrInvalidArgument = true) ∧
    ((∃ e, uuid.Parse input.UserID = Except.error e) →
      ∃ err, (s.validateInput input).2 = some err) ∧
    ((∃ e, uuid.Parse input.UserID = Except.error e) ↔
      (uuid.isValidText input.UserID = false ∧
        ¬ (input.UserID.length = 38 ∧ uuid.isHyphenatedForm (input.UserID.drop 1) = true))) := by
  refine ⟨?_, ?_, ?_⟩
  · intro err h
    obtain ⟨heq, hcls⟩ := validateInput_error s input err h
    refine ⟨?_, hcls⟩
    simp only [Service.Create, heq]
  · rintro ⟨e, he⟩
    rw [validateInput_eq]
    have h3 : checkUserID input = some errUserID := by
      simp only [checkUserID, he]
    cases h1 : checkServiceName input with
    | some e1 => exact ⟨e1, by simp [firstFailure, checksInOrder, h1]⟩
    | none =>
      cases h2 : checkPrice input with
      | some e2 => exact ⟨e2, by simp [firstFailure, checksInOrder, h1, h2]⟩
      | none => exact ⟨errUserID, by simp [firstFailure, checksInOrder, h1, h2, h3]⟩
  · have hp := uuid.Parse_ok_iff input.UserID
    have hsplit : uuid.isParsedText input.UserID = true ↔
        ¬ (uuid.isValidText input.UserID = false ∧
          ¬ (input.UserID.length = 38 ∧
            uuid.isHyphenatedForm (input.UserID.drop 1) = true)) := by
      simp only [uuid.isParsedText, Bool.or_eq_true, Bool.and_eq_true, beq_iff_eq]
      cases uuid.isValidText input.UserID <;> simp
    constructor
    · rintro ⟨e, he⟩
      by_contra hn
      obtain ⟨u, hu⟩ := hp.mpr (hsplit.mpr hn)
      rw [he] at hu
      cases hu
    · intro hn
      cases hparse : uuid.Parse input.UserID with
      | error e => exact ⟨e, rfl⟩
      | ok u => exact absurd hn (hsplit.mp (hp.mp ⟨u, hparse⟩))

theorem C9_Create_rejects_without_repository_witness :
    uuid.isValidText ({ exampleInput with UserID := str "not-a-uuid" } :
      SubscriptionInput).UserID = false ∧
    (∃ e, uuid.Parse ({ exampleInput with UserID := str "not-a-uuid" } :
      SubscriptionInput).UserID = Except.error e) ∧
    (exampleService.validateInput { exampleInput with UserID := str "not-a-uuid" }).2 =
      some errUserID ∧
    (exampleService.Create uuid.Nil { exampleInput with UserID := str "not-a-uuid" } =
        ((domain.Subscription.zero, some errUserID), []) ∧
      errorsIs errUserID Sentinel.ErrInvalidArgument = true) :=
  ⟨by decide,
    (C9_Create_rejects_without_repository exampleService uuid.Nil
      { exampleInput with UserID := str "not-a-uuid" }).2.2.mpr ⟨by decide, by decide⟩,
    by decide,
    (C9_Create_rejects_without_repository exampleService uuid.Nil
      { exampleInput with UserID := str "not-a-uuid" }).1 errUserID (by decide)⟩

/-! ## Trimming and the order of two dates -/

namespace strings

theorem dropSpace_none (runes : List GoString) (a : Nat) (rest : GoString)
    (h : ∀ r ∈ runes, r.head? ≠ some a ∧ r ≠ []) : dropSpace runes (a :: rest) = none := by
  unfold dropSpace
  rw [List.findSome?_eq_none_iff]
  intro r hr
  obtain ⟨h1, h2⟩ := h r hr
  rcases r with _ | ⟨b, tl⟩
  · exact absurd rfl h2
  · have hb : b ≠ a := by
      intro hb
      apply h1
      simp [hb]
    simp [List.isPrefixOf, hb]

theorem spaceRunes_head :
    ∀ r ∈ spaceRunes, (∀ b, r.head? = some b → b < 48 ∨ 57 < b) ∧ r ≠ [] := by decide

theorem spaceRunes_last :
    ∀ r ∈ spaceRunes.map List.reverse, (∀ b, r.head? = some b → b < 48 ∨ 57 < b) ∧ r ≠ [] := by
  decide

theorem trimLoop_digit (runes : List GoString) (n : Nat) (a : Nat) (rest : GoString)
    (ha : isDigitByte a)
    (h : ∀ r ∈ runes, (∀ b, r.head? = some b → b < 48 ∨ 57 < b) ∧ r ≠ []) :
    trimLoop runes n (a :: rest) = a :: rest := by
  cases n with
  | zero => rfl
  | succ n =>
    have hd : dropSpace runes (a :: rest) = none := by
      apply dropSpace_none
      intro r hr
      refine ⟨?_, (h r hr).2⟩
      intro hh
      have := (h r hr).1 a hh
      simp only [isDigitByte] at ha
      omega
    simp only [trimLoop, hd]

/-- Trimming leaves a text alone that begins and ends with a digit. -/
theorem TrimSpace_digits (a b : Nat) (mid : GoString) (ha : isDigitByte a) (hb : isDigitByte b) :
    TrimSpace (a :: (mid ++ [b])) = a :: (mid ++ [b]) := by
  unfold TrimSpace TrimLeftSpace
  rw [trimLoop_digit spaceRunes _ a _ ha spaceRunes_head]
  unfold TrimRightSpace
  have hrev : (a :: (mid ++ [b])).reverse = b :: (mid.reverse ++ [a]) := by simp
  rw [hrev, trimLoop_digit _ _ b _ hb spaceRunes_last]
  simp

end strings

namespace usecase

open time

theorem ParseMonthDate_isZero (x : GoString) (h : IsMonthText x)
    (hz : (ParseMonthDate x).1.IsZero = true) : x = str "01-0001" := by
  rw [ParseMonthDate_ok x h] at hz
  obtain ⟨m1, m2, y1, y2, y3, y4, rfl, hm1, hm2, hy1, hy2, hy3, hy4, h1, h2⟩ := h
  have hy := fourDigits_bounds y1 y2 y3 y4 hy1 hy2 hy3 hy4
  have hzy : absoluteZeroYear ≤ fourDigits y1 y2 y3 y4 := by
    simp only [absoluteZeroYear]
    omega
  have hz' := (Date_first_isZero _ _ hzy h1 h2).mp hz
  simp only [yearOfText, monthOfText, List.getD_cons_zero, List.getD_cons_succ] at hz'
  obtain ⟨e1, e2⟩ := hz'
  rw [str_zero_month]
  clear hz hzy hy h1 h2
  simp only [isDigitByte, fourDigits, twoDigits] at hm1 hm2 hy1 hy2 hy3 hy4 e1 e2
  have : m1 = 48 ∧ m2 = 49 ∧ y1 = 48 ∧ y2 = 48 ∧ y3 = 48 ∧ y4 = 49 := by omega
  simp only [this]

theorem ParseMonthDate_Before (a b : GoString) (ha : IsMonthText a) (hb : IsMonthText b) :
    (ParseMonthDate a).1.Before (ParseMonthDate b).1 = true ↔ monthBefore a b := by
  rw [ParseMonthDate_ok a ha, ParseMonthDate_ok b hb]
  obtain ⟨m1, m2, y1, y2, y3, y4, rfl, hm1, hm2, hy1, hy2, hy3, hy4, h1, h2⟩ := ha
  obtain ⟨n1, n2, z1, z2, z3, z4, rfl, hn1, hn2, hz1, hz2, hz3, hz4, k1, k2⟩ := hb
  have hy := fourDigits_bounds y1 y2 y3 y4 hy1 hy2 hy3 hy4
  have hz := fourDigits_bounds z1 z2 z3 z4 hz1 hz2 hz3 hz4
  simp only [monthBefore, yearOfText, monthOfText, List.getD_cons_zero, List.getD_cons_succ]
  apply Date_first_Before
  · simp only [absoluteZeroYear]
    omega
  · simp only [absoluteZeroYear]
    omega
  · exact h1
  · exact h2
  · exact k1
  · exact k2

theorem TrimSpace_monthText (x : GoString) (h : IsMonthText x) : strings.TrimSpace x ≠ [] := by
  obtain ⟨m1, m2, y1, y2, y3, y4, rfl, hm1, hm2, hy1, hy2, hy3, hy4, h1, h2⟩ := h
  have := strings.TrimSpace_digits m1 y4 [m2, 45, y1, y2, y3] hm1 hy4
  simp only [List.cons_append, List.nil_append] at this
  rw [this]
  simp

end usecase

/-- C8 (as stated, refuted): with every other field valid, the start date
"01-0001" and the end date "02-0001" are both valid months and the end is not
earlier than the start, yet `validateInput` fails, with the error "start_date
is required", classified `ErrInvalidArgument`. -/
theorem C8_later_end_rejected_at_year_one :
    (ParseMonthDate (str "01-0001")).2 = none ∧
    (ParseMonthDate (str "02-0001")).2 = none ∧
    ¬ monthBefore (str "02-0001") (str "01-0001") ∧
    (ParseMonthDate (str "02-0001")).1.Before (ParseMonthDate (str "01-0001")).1 = false ∧
    (exampleService.validateInput exampleInput).2 = none ∧
    (exampleService.validateInput
      { exampleInput with StartDate := str "01-0001", EndDate := some (str "02-0001") }).2 =
        some errStartRequired ∧
    errorsIs errStartRequired Sentinel.ErrInvalidArgument = true := by
  refine ⟨by decide, by decide, by decide, by decide, by decide, by decide, by decide⟩

/-- C8 (amended): for every input with an acceptable service name, a positive
price, a well-formed user identifier that is not nil, and start and end dates
that are both valid months, the start date not being "01-0001",
`validateInput` fails if and only if the end month is strictly earlier than
the start month, and then with an error classified `ErrInvalidArgument`; equal
months are accepted. -/
theorem C8_end_before_start (s : Service) (input : SubscriptionInput) (e : GoString)
    (uid : uuid.UUID)
    (hname : 3 ≤ (strings.TrimSpace input.ServiceName).length) (hprice : 0 < input.Price)
    (huid : uuid.Parse input.UserID = Except.ok uid) (hnil : uid ≠ uuid.Nil)
    (hstart : (ParseMonthDate input.StartDate).2 = none)
    (hend : input.EndDate = some e) (hendv : (ParseMonthDate e).2 = none)
    (hyear : input.StartDate ≠ str "01-0001") :
    ((s.validateInput input).2 ≠ none ↔ monthBefore e input.StartDate) ∧
    (monthBefore e input.StartDate →
      s.validateInput input = (domain.Subscription.zero, some errEndBeforeStart) ∧
      errorsIs errEndBeforeStart Sentinel.ErrInvalidArgument = true) ∧
    (e = input.StartDate → (s.validateInput input).2 = none) := by
  have hs := ParseMonthDate_shape _ hstart
  have he := ParseMonthDate_shape _ hendv
  have c1 : checkServiceName input = none := by
    simp only [checkServiceName]
    rw [if_neg (by omega)]
  have c2 : checkPrice input = none := by
    simp only [checkPrice]
    rw [if_neg (by omega)]
  have c3 : checkUserID input = none := by simp only [checkUserID, huid]
  have c4 : checkStartDate input = none := by simp only [checkStartDate, hstart, Option.map_none']
  have hp : endProvided input = some e := by
    simp [endProvided, hend, Option.filter, TrimSpace_monthText e he]
  have c5 : checkEndDate input = none := by
    simp only [checkEndDate, hp, Option.bind, hendv, Option.map_none']
  have c7 : checkUserIDNotNil input = none := by simp only [checkUserIDNotNil, huid, hnil, if_false]
  have c8 : checkStartNotZero input = none := by
    simp only [checkStartNotZero]
    rw [if_neg]
    rintro ⟨_, hz⟩
    exact hyear (ParseMonthDate_isZero _ hs hz)
  have hB := ParseMonthDate_Before e input.StartDate he hs
  have key : s.validateInput input =
      if monthBefore e input.StartDate then (domain.Subscription.zero, some errEndBeforeStart)
      else (validatedRecord input, none) := by
    rw [validateInput_eq]
    by_cases hb : monthBefore e input.StartDate
    · have hb' := hB.mpr hb
      simp [firstFailure, checksInOrder, c1, c2, c3, c4, c5, checkEndNotBeforeStart, hp, hendv,
        hstart, hb', hb]
    · have hb' : ¬ (ParseMonthDate e).1.Before (ParseMonthDate input.StartDate).1 = true :=
        fun h => hb (hB.mp h)
      simp [firstFailure, checksInOrder, c1, c2, c3, c4, c5, c7, c8, checkEndNotBeforeStart, hp,
        hendv, hstart, hb', hb]
  refine ⟨?_, ?_, ?_⟩
  · rw [key]
    by_cases hb : monthBefore e input.StartDate <;> simp [hb]
  · intro hb
    rw [key, if_pos hb]
    exact ⟨rfl, rfl⟩
  · intro heq
    have hb : ¬ monthBefore e input.StartDate := by
      rw [heq]
      simp only [monthBefore]
      omega
    rw [key, if_neg hb]

theorem C8_end_before_start_witness :
    3 ≤ (strings.TrimSpace exampleInput.ServiceName).length ∧ 0 < exampleInput.Price ∧
    uuid.Parse exampleInput.UserID =
      Except.ok [96, 96, 31, 238, 43, 241, 71, 33, 174, 111, 118, 54, 231, 154, 12, 186] ∧
    (ParseMonthDate (str "12-2025")).2 = none ∧ (ParseMonthDate (str "07-2025")).2 = none ∧
    str "12-2025" ≠ str "01-0001" ∧
    monthBefore (str "07-2025") (str "12-2025") ∧
    (exampleService.validateInput
      { exampleInput with StartDate := str "12-2025", EndDate := some (str "07-2025") }).2 ≠ none ∧
    (exampleService.validateInput
      { exampleInput with StartDate := str "12-2025", EndDate := some (str "12-2025") }).2 = none :=
  ⟨by decide, by decide, rfl, by decide, by decide, by decide, by decide,
    (C8_end_before_start exampleService
      { exampleInput with StartDate := str "12-2025", EndDate := some (str "07-2025") }
      (str "07-2025") [96, 96, 31, 238, 43, 241, 71, 33, 174, 111, 118, 54, 231, 154, 12, 186]
      (by decide) (by decide) rfl (by decide) (by decide) rfl (by decide)
      (by decide)).1.mpr (by decide),
    (C8_end_before_start exampleService
      { exampleInput with StartDate := str "12-2025", EndDate := some (str "12-2025") }
      (str "12-2025") [96, 96, 31, 238, 43, 241, 71, 33, 174, 111, 118, 54, 231, 154, 12, 186]
      (by decide) (by decide) rfl (by decide) (by decide) rfl (by decide)
      (by decide)).2.2 rfl⟩

/-- C10 (as stated, refuted): with a nil (all-zero) `user_id` and a malformed
`start_date`, the first failing check in the order of the specification is
the one of the user identifier, but `validateInput` reports the error of the
start date. -/
theorem C10_nil_user_id_reported_after_start_date :
    uuid.Parse (str "00000000-0000-0000-0000-000000000000") = Except.ok uuid.Nil ∧
    (ParseMonthDate (str "2025-07")).2.isSome = true ∧
    firstFailure (checksAsSpecified
      { exampleInput with UserID := str "00000000-0000-0000-0000-000000000000",
                          StartDate := str "2025-07" }) = some errUserIDRequired ∧
    (exampleService.validateInput
      { exampleInput with UserID := str "00000000-0000-0000-0000-000000000000",
                          StartDate := str "2025-07" }).2 =
      (ParseMonthDate (str "2025-07")).2.map errDate ∧
    (exampleService.validateInput
      { exampleInput with UserID := str "00000000-0000-0000-0000-000000000000",
                          StartDate := str "2025-07" }).2 ≠ some errUserIDRequired ∧
    (exampleService.validateInput
      { exampleInput with UserID := str "00000000-0000-0000-0000-000000000000",
                          StartDate := str "2025-07" }).2 ≠ some errUserID := by
  refine ⟨rfl, by decide, by decide, by decide, by decide, by decide⟩

/-- C10 (amended): `validateInput` applies its checks in the order (1) length
of the trimmed service name, (2) price, (3) user identifier well formed,
(4) start date parsed, (5) end date parsed when provided, (6) end not before
start, (7) user identifier not nil, (8) start date not the zero time, and
returns the error of the first check that fails, with the zero record; when
no check fails it returns the validated record and no error. -/
theorem C10_validateInput_reports_first_failure (s : Service) (input : SubscriptionInput) :
    s.validateInput input =
      match firstFailure
        [checkServiceName input, checkPrice input, checkUserID input, checkStartDate input,
         checkEndDate input, checkEndNotBeforeStart input, checkUserIDNotNil input,
         checkStartNotZero input] with
      | some err => (domain.Subscription.zero, some err)
      | none => (validatedRecord input, none) :=
  validateInput_eq s input

/-- The length check of `validateInput` in bytes: a service name of fewer than
3 bytes once trimmed is rejected with the service-name error, classified
`ErrInvalidArgument` ("ab" and " ab " are rejected), and a name of 3 bytes or
more is never rejected with that error ("abc" is accepted). -/
theorem validateInput_service_name_bytes (s : Service) (input : SubscriptionInput) :
    ((strings.TrimSpace input.ServiceName).length < 3 →
      s.validateInput input = (domain.Subscription.zero, some errServiceName) ∧
      errorsIs errServiceName Sentinel.ErrInvalidArgument = true) ∧
    (3 ≤ (strings.TrimSpace input.ServiceName).length →
      checkServiceName input = none) ∧
    (s.validateInput { exampleInput with ServiceName := str "ab" }).2 = some errServiceName ∧
    (s.validateInput { exampleInput with ServiceName := str " ab " }).2 = some errServiceName ∧
    (s.validateInput { exampleInput with ServiceName := str "abc" }).2 = none := by
  refine ⟨?_, ?_, ?_, ?_, ?_⟩
  · intro h
    refine ⟨?_, rfl⟩
    rw [validateInput_eq]
    simp [firstFailure, checksInOrder, checkServiceName, h]
  · intro h
    simp only [checkServiceName]
    rw [if_neg (by omega)]
  · rw [validateInput_eq]
    have h : firstFailure (checksInOrder { exampleInput with ServiceName := str "ab" }) =
        some errServiceName := by decide
    rw [h]
  · rw [validateInput_eq]
    have h : firstFailure (checksInOrder { exampleInput with ServiceName := str " ab " }) =
        some errServiceName := by decide
    rw [h]
  · rw [validateInput_eq]
    have h : firstFailure (checksInOrder { exampleInput with ServiceName := str "abc" }) =
        none := by decide
    rw [h]

/-! ## Trimming twice, and the checks of an accepted input -/

namespace strings

theorem dropSpace_eq_none_iff (runes : List GoString) (s : GoString) :
    dropSpace runes s = none ↔ ∀ r ∈ runes, ¬ r <+: s := by
  unfold dropSpace
  rw [List.findSome?_eq_none_iff]
  constructor
  · intro h r hr hp
    have := h r hr
    rw [if_pos (List.isPrefixOf_iff_prefix.mpr hp)] at this
    cases this
  · intro h r hr
    rw [if_neg]
    intro hp
    exact h r hr (List.isPrefixOf_iff_prefix.mp hp)

theorem dropSpace_some (runes : List GoString) (s rest : GoString)
    (h : dropSpace runes s = some rest) : ∃ r ∈ runes, s = r ++ rest := by
  unfold dropSpace at h
  obtain ⟨r, hr, hx⟩ := List.exists_of_findSome?_eq_some h
  refine ⟨r, hr, ?_⟩
  split at hx
  · rename_i hp
    obtain ⟨t, ht⟩ := List.isPrefixOf_iff_prefix.mp hp
    simp only [Option.some.injEq] at hx
    rw [← hx, ← ht]
    simp
  · cases hx

/-- With enough fuel, what the loop leaves begins with no space rune. -/
theorem trimLoop_done (runes : List GoString) (hne : ∀ r ∈ runes, r ≠ []) (n : Nat) :
    ∀ s : GoString, s.length ≤ n → dropSpace runes (trimLoop runes n s) = none := by
  induction n with
  | zero =>
    intro s hs
    have : s = [] := List.length_eq_zero.mp (by omega)
    subst this
    rw [trimLoop, dropSpace_eq_none_iff]
    intro r hr hp
    exact hne r hr (List.prefix_nil.mp hp)
  | succ n ih =>
    intro s hs
    rw [trimLoop]
    cases hd : dropSpace runes s with
    | none => simpa using hd
    | some rest =>
      simp only []
      apply ih
      obtain ⟨r, hr, hsr⟩ := dropSpace_some runes s rest hd
      have hl : 0 < r.length := List.length_pos.mpr (hne r hr)
      rw [hsr, List.length_append] at hs
      omega

theorem trimLoop_fixed (runes : List GoString) (n : Nat) (s : GoString)
    (h : dropSpace runes s = none) : trimLoop runes n s = s := by
  cases n with
  | zero => rfl
  | succ n => simp only [trimLoop, h]

/-- What the loop leaves is the end of the text. -/
theorem trimLoop_suffix (runes : List GoString) (n : Nat) :
    ∀ s : GoString, trimLoop runes n s <:+ s := by
  induction n with
  | zero => intro s; exact List.suffix_refl s
  | succ n ih =>
    intro s
    rw [trimLoop]
    cases hd : dropSpace runes s with
    | none => exact List.suffix_refl s
    | some rest =>
      simp only []
      obtain ⟨r, _, hsr⟩ := dropSpace_some runes s rest hd
      exact (ih rest).trans ⟨r, hsr.symm⟩

theorem spaceRunes_ne_nil : ∀ r ∈ spaceRunes, r ≠ [] := by decide

theorem spaceRunes_reverse_ne_nil : ∀ r ∈ spaceRunes.map List.reverse, r ≠ [] := by decide

/-- `TrimSpace` changes nothing in a text that it has trimmed. -/
theorem TrimSpace_idem (s : GoString) : TrimSpace (TrimSpace s) = TrimSpace s := by
  have hu : dropSpace spaceRunes (TrimLeftSpace s) = none :=
    trimLoop_done spaceRunes spaceRunes_ne_nil _ s (le_refl _)
  unfold TrimSpace
  generalize TrimLeftSpace s = u at hu ⊢
  have hv : dropSpace (spaceRunes.map List.reverse)
      (trimLoop (spaceRunes.map List.reverse) u.length u.reverse) = none :=
    trimLoop_done _ spaceRunes_reverse_ne_nil _ u.reverse (by simp)
  have hsuf := trimLoop_suffix (spaceRunes.map List.reverse) u.length u.reverse
  have ht : TrimRightSpace u =
      (trimLoop (spaceRunes.map List.reverse) u.length u.reverse).reverse := rfl
  generalize trimLoop (spaceRunes.map List.reverse) u.length u.reverse = v at hv hsuf ht
  have hpre : v.reverse <+: u := by
    have := List.reverse_prefix.mpr hsuf
    simpa using this
  have hleft : TrimLeftSpace (TrimRightSpace u) = TrimRightSpace u := by
    rw [ht]
    unfold TrimLeftSpace
    apply trimLoop_fixed
    rw [dropSpace_eq_none_iff]
    intro r hr hp
    exact (dropSpace_eq_none_iff spaceRunes u).mp hu r hr (hp.trans hpre)
  rw [hleft, ht]
  unfold TrimRightSpace
  rw [List.reverse_reverse, trimLoop_fixed _ _ v hv]

end strings

namespace usecase

open time

/-- When no check fails, each of the eight checks passes. -/
theorem checks_pass_of_firstFailure_none (input : SubscriptionInput)
    (h : firstFailure (checksInOrder input) = none) :
    checkServiceName input = none ∧ checkPrice input = none ∧ checkUserID input = none ∧
    checkStartDate input = none ∧ checkEndDate input = none ∧
    checkEndNotBeforeStart input = none ∧ checkUserIDNotNil input = none ∧
    checkStartNotZero input = none := by
  simp only [firstFailure, checksInOrder, List.findSome?_eq_none_iff, List.mem_cons,
    List.mem_singleton, List.not_mem_nil, or_false, id] at h
  exact ⟨h _ (Or.inl rfl), h _ (Or.inr (Or.inl rfl)), h _ (Or.inr (Or.inr (Or.inl rfl))),
    h _ (Or.inr (Or.inr (Or.inr (Or.inl rfl)))),
    h _ (Or.inr (Or.inr (Or.inr (Or.inr (Or.inl rfl))))),
    h _ (Or.inr (Or.inr (Or.inr (Or.inr (Or.inr (Or.inl rfl)))))),
    h _ (Or.inr (Or.inr (Or.inr (Or.inr (Or.inr (Or.inr (Or.inl rfl))))))),
    h _ (Or.inr (Or.inr (Or.inr (Or.inr (Or.inr (Or.inr (Or.inr rfl)))))))⟩

/-- What `validateInput` returns without error is the validated record of an
input that passes every check. -/
theorem validateInput_ok (s : Service) (input : SubscriptionInput) (sub : domain.Subscription)
    (h : s.validateInput input = (sub, none)) :
    sub = validatedRecord input ∧ firstFailure (checksInOrder input) = none := by
  rw [validateInput_eq] at h
  cases hf : firstFailure (checksInOrder input) with
  | some err => rw [hf] at h; cases h
  | none =>
    rw [hf] at h
    simp only [Prod.mk.injEq, and_true] at h
    exact ⟨h.symm, rfl⟩

end usecase

/-! ## Paging of the list query -/

namespace postgres

open time usecase

theorem List_limit_clamped (limit : Int) :
    (if limit ≤ 0 ∨ limit > 100 then 20 else limit) = effectiveLimit limit := by
  unfold effectiveLimit
  by_cases h : limit ≤ 0 ∨ limit > 100
  · rw [if_pos h, if_neg (by omega)]
  · rw [if_neg h, if_pos (by omega)]

theorem List_offset_clamped (offset : Int) :
    (if offset < 0 then 0 else offset) = effectiveOffset offset := by
  unfold effectiveOffset
  by_cases h : offset < 0
  · rw [if_pos h, if_neg (by omega)]
  · rw [if_neg h, if_pos (by omega)]

theorem effectiveLimit_bounds (limit : Int) :
    1 ≤ effectiveLimit limit ∧ effectiveLimit limit ≤ 100 := by
  unfold effectiveLimit
  split <;> omega

theorem effectiveLimit_idem (limit : Int) :
    effectiveLimit (effectiveLimit limit) = effectiveLimit limit := by
  have h := effectiveLimit_bounds limit
  generalize effectiveLimit limit = l at h
  unfold effectiveLimit
  rw [if_pos h]

theorem effectiveOffset_idem (offset : Int) :
    effectiveOffset (effectiveOffset offset) = effectiveOffset offset := by
  unfold effectiveOffset
  split <;> simp

theorem effectiveOffset_nonneg (offset : Int) : 0 ≤ effectiveOffset offset := by
  unfold effectiveOffset
  split <;> omega

/-- `List` runs the list query with the effective limit and offset, which the
database accepts, and returns the page of that limit and offset. -/
theorem List_eq (r : SubscriptionRepository) (filter : ListFilter) :
    r.List filter =
      match r.pool.failure with
      | some err => ([], some (GoError.errorfW "repo ListSubscriptions: %w" err))
      | none =>
        ((listPage r.pool.subscriptions filter.UserID filter.ServiceName
          (effectiveLimit filter.Limit).toNat (effectiveOffset filter.Offset).toNat).map
            Row.scan, none) := by
  have hl := effectiveLimit_bounds filter.Limit
  have ho := effectiveOffset_nonneg filter.Offset
  have hw : whereCond filter.UserID filter.ServiceName =
      matchesFilter filter.UserID filter.ServiceName := by
    funext x
    exact (matchesFilter_eq _ _ x).symm
  unfold SubscriptionRepository.List
  cases r.pool.failure with
  | some err => rfl
  | none =>
    simp only [List_limit_clamped, List_offset_clamped, listQuery]
    rw [if_neg (by omega), if_neg (by omega)]
    simp only [listPage, hw]

end postgres

/-! ## Classification of errors -/

/-- An error has at most one of the three classifications. -/
theorem errorsIs_unique (err : GoError) (a b : Sentinel)
    (ha : errorsIs err a = true) (hb : errorsIs err b = true) : a = b := by
  induction err with
  | sentinel s =>
    simp only [errorsIs, beq_iff_eq] at ha hb
    rw [← ha, ← hb]
  | parse e => simp [errorsIs] at ha
  | library t => simp [errorsIs] at ha
  | errorfW f w ih =>
    simp only [errorsIs] at ha hb
    exact ih ha hb
  | errorfWS f w s ih _ =>
    simp only [errorsIs] at ha hb
    exact ih ha hb

/-! ## The validator, the repository and the transport: the claims -/

/-- C11 (as stated, refuted): the input with start date "01-0001" passes the
six checks (name of 3 bytes or more, positive price, well-formed user
identifier that is not nil, start date that `ParseMonthDate` accepts, no end
date), yet `validateInput` rejects it. -/
theorem C11_valid_input_rejected_at_year_one :
    3 ≤ (strings.TrimSpace exampleInput.ServiceName).length ∧
    0 < exampleInput.Price ∧
    (∃ uid, uuid.Parse exampleInput.UserID = Except.ok uid ∧ uid ≠ uuid.Nil) ∧
    (ParseMonthDate (str "01-0001")).2 = none ∧
    ({ exampleInput with StartDate := str "01-0001" } : SubscriptionInput).EndDate = none ∧
    exampleService.validateInput { exampleInput with StartDate := str "01-0001" } =
      (domain.Subscription.zero, some errStartRequired) := by
  refine ⟨by decide, by decide, ⟨_, rfl, by decide⟩, by decide, rfl, by decide⟩

/-- C11 (amended): for every input with a trimmed service name of 3 bytes or
more, a positive price, a well-formed user identifier that is not nil, a start
date that `ParseMonthDate` accepts, other than "01-0001", and an end date that
is absent, blank, or a valid month not earlier than the start month,
`validateInput` returns no error and the record with the trimmed name, the
price of the input, the parsed identifier, the parsed start date, the parsed
end date when one is provided and none otherwise, and the zero identity and
timestamps. -/
theorem C11_validateInput_accepts (s : Service) (input : SubscriptionInput) (uid : uuid.UUID)
    (hname : 3 ≤ (strings.TrimSpace input.ServiceName).length) (hprice : 0 < input.Price)
    (huid : uuid.Parse input.UserID = Except.ok uid) (hnil : uid ≠ uuid.Nil)
    (hstart : (ParseMonthDate input.StartDate).2 = none)
    (hyear : input.StartDate ≠ str "01-0001")
    (hend : input.EndDate = none ∨
      (∃ e, input.EndDate = some e ∧ strings.TrimSpace e = []) ∨
      (∃ e, input.EndDate = some e ∧ (ParseMonthDate e).2 = none ∧
        ¬ monthBefore e input.StartDate)) :
    s.validateInput input =
      ({ ID := uuid.Nil
         ServiceName := strings.TrimSpace input.ServiceName
         Price := input.Price
         UserID := uid
         StartDate := (ParseMonthDate input.StartDate).1
         EndDate :=
           match input.EndDate with
           | some e => if strings.TrimSpace e = [] then none else some (ParseMonthDate e).1
           | none => none
         CreatedAt := Time.zero
         UpdatedAt := Time.zero }, none) := by
  have hs := ParseMonthDate_shape _ hstart
  have c1 : checkServiceName input = none := by
    simp only [checkServiceName]
    rw [if_neg (by omega)]
  have c2 : checkPrice input = none := by
    simp only [checkPrice]
    rw [if_neg (by omega)]
  have c3 : checkUserID input = none := by simp only [checkUserID, huid]
  have c4 : checkStartDate input = none := by simp only [checkStartDate, hstart, Option.map_none']
  have c7 : checkUserIDNotNil input = none := by simp only [checkUserIDNotNil, huid, hnil, if_false]
  have c8 : checkStartNotZero input = none := by
    simp only [checkStartNotZero]
    rw [if_neg]
    rintro ⟨_, hz⟩
    exact hyear (ParseMonthDate_isZero _ hs hz)
  rw [validateInput_eq]
  rcases hend with h | ⟨e, h, hb⟩ | ⟨e, h, hv, hnb⟩
  · have hp : endProvided input = none := by simp [endProvided, h, Option.filter]
    simp [firstFailure, checksInOrder, c1, c2, c3, c4, c7, c8, checkEndDate,
      checkEndNotBeforeStart, hp, validatedRecord, huid, h, domain.Subscription.zero]
  · have hp : endProvided input = none := by simp [endProvided, h, Option.filter, hb]
    simp [firstFailure, checksInOrder, c1, c2, c3, c4, c7, c8, checkEndDate,
      checkEndNotBeforeStart, hp, validatedRecord, huid, h, domain.Subscription.zero, hb]
  · have he := ParseMonthDate_shape _ hv
    have hne := TrimSpace_monthText e he
    have hp : endProvided input = some e := by simp [endProvided, h, Option.filter, hne]
    have hB : ¬ (ParseMonthDate e).1.Before (ParseMonthDate input.StartDate).1 = true :=
      fun hh => hnb ((ParseMonthDate_Before e input.StartDate he hs).mp hh)
    simp [firstFailure, checksInOrder, c1, c2, c3, c4, c7, c8, checkEndDate,
      checkEndNotBeforeStart, hp, validatedRecord, huid, h, domain.Subscription.zero, hne, hv, hB]

theorem C11_validateInput_accepts_witness :
    3 ≤ (strings.TrimSpace exampleInput.ServiceName).length ∧ 0 < exampleInput.Price ∧
    uuid.Parse exampleInput.UserID =
      Except.ok [96, 96, 31, 238, 43, 241, 71, 33, 174, 111, 118, 54, 231, 154, 12, 186] ∧
    (ParseMonthDate (str "07-2025")).2 = none ∧ (ParseMonthDate (str "12-2025")).2 = none ∧
    ¬ monthBefore (str "12-2025") (str "07-2025") ∧
    exampleService.validateInput { exampleInput with EndDate := some (str "12-2025") } =
      ({ ID := uuid.Nil
         ServiceName := str "Yandex Plus"
         Price := 400
         UserID := [96, 96, 31, 238, 43, 241, 71, 33, 174, 111, 118, 54, 231, 154, 12, 186]
         StartDate := Date 2025 7 1 0 0 0 0 Location.UTC
         EndDate := some (Date 2025 12 1 0 0 0 0 Location.UTC)
         CreatedAt := Time.zero
         UpdatedAt := Time.zero }, none) :=
  ⟨by decide, by decide, rfl, by decide, by decide, by decide,
    (C11_validateInput_accepts exampleService { exampleInput with EndDate := some (str "12-2025") }
      [96, 96, 31, 238, 43, 241, 71, 33, 174, 111, 118, 54, 231, 154, 12, 186]
      (by decide) (by decide) rfl (by decide) (by decide) (by decide)
      (Or.inr (Or.inr ⟨str "12-2025", rfl, by decide, by decide⟩))).trans (by decide)⟩

/-- C12: every record that `validateInput` returns without error has a positive
price, a service name that trimming leaves unchanged and that has 3 bytes or
more, a user identifier that is not nil, a start date that is the first day of
a month at 00:00:00 in UTC, and an end date that is unset or not before the
start date. -/
theorem C12_validated_record_invariants (s : Service) (input : SubscriptionInput)
    (sub : domain.Subscription) (h : s.validateInput input = (sub, none)) :
    0 < sub.Price ∧
    strings.TrimSpace sub.ServiceName = sub.ServiceName ∧
    3 ≤ sub.ServiceName.length ∧
    sub.UserID ≠ uuid.Nil ∧
    (sub.StartDate.loc = Location.UTC ∧ sub.StartDate.Day = 1 ∧ sub.StartDate.Hour = 0 ∧
      sub.StartDate.Minute = 0 ∧ sub.StartDate.Second = 0 ∧ sub.StartDate.Nanosecond = 0) ∧
    (sub.EndDate = none ∨ ∃ e, sub.EndDate = some e ∧ e.Before sub.StartDate = false) := by
  obtain ⟨rfl, hf⟩ := validateInput_ok s input sub h
  obtain ⟨c1, c2, c3, c4, c5, c6, c7, _⟩ := checks_pass_of_firstFailure_none input hf
  refine ⟨?_, ?_, ?_, ?_, ?_, ?_⟩
  · simp only [checkPrice] at c2
    split at c2
    · cases c2
    · simp only [validatedRecord]
      omega
  · exact strings.TrimSpace_idem input.ServiceName
  · simp only [checkServiceName] at c1
    split at c1
    · cases c1
    · simp only [validatedRecord]
      omega
  · simp only [validatedRecord]
    simp only [checkUserID] at c3
    simp only [checkUserIDNotNil] at c7
    cases hp : uuid.Parse input.UserID with
    | error e => rw [hp] at c3; cases c3
    | ok uid =>
      rw [hp] at c7
      simp only []
      intro hn
      simp [hn] at c7
  · have hstart : (ParseMonthDate input.StartDate).2 = none := by
      simp only [checkStartDate] at c4
      cases hp : (ParseMonthDate input.StartDate).2 with
      | none => rfl
      | some e => rw [hp] at c4; cases c4
    have hs := ParseMonthDate_shape _ hstart
    simp only [validatedRecord]
    generalize input.StartDate = x at hs
    rw [ParseMonthDate_ok _ hs]
    obtain ⟨m1, m2, y1, y2, y3, y4, rfl, hm1, hm2, hy1, hy2, hy3, hy4, h1, h2⟩ := hs
    have hy := fourDigits_bounds y1 y2 y3 y4 hy1 hy2 hy3 hy4
    have hz : absoluteZeroYear ≤ fourDigits y1 y2 y3 y4 := by
      simp only [absoluteZeroYear]
      omega
    have hfld := Date_first_fields (fourDigits y1 y2 y3 y4) (twoDigits m1 m2) hz h1 h2
    have hc := Date_first_clock (fourDigits y1 y2 y3 y4) (twoDigits m1 m2) h1 h2
    exact ⟨hc.2.2.2.2, hfld.2.2, hc.1, hc.2.1, hc.2.2.1, hc.2.2.2.1⟩
  · simp only [validatedRecord]
    cases hp : endProvided input with
    | none => exact Or.inl rfl
    | some e =>
      refine Or.inr ⟨(ParseMonthDate e).1, rfl, ?_⟩
      have hstart : (ParseMonthDate input.StartDate).2 = none := by
        simp only [checkStartDate] at c4
        cases hp : (ParseMonthDate input.StartDate).2 with
        | none => rfl
        | some e => rw [hp] at c4; cases c4
      have hend : (ParseMonthDate e).2 = none := by
        simp only [checkEndDate, hp, Option.bind] at c5
        cases hpe : (ParseMonthDate e).2 with
        | none => rfl
        | some e' => rw [hpe] at c5; cases c5
      simp only [checkEndNotBeforeStart, hp, Option.bind, hend, hstart, true_and] at c6
      split at c6
      · cases c6
      · rename_i hb
        simpa using hb

theorem C12_validated_record_invariants_witness :
    exampleService.validateInput examplePaddedInput =
      (validatedRecord examplePaddedInput, none) ∧
    (validatedRecord examplePaddedInput).ServiceName = str "Netflix" ∧
    0 < (validatedRecord examplePaddedInput).Price ∧
    strings.TrimSpace (validatedRecord examplePaddedInput).ServiceName =
      (validatedRecord examplePaddedInput).ServiceName :=
  ⟨by decide, by decide,
    (C12_validated_record_invariants exampleService examplePaddedInput
      (validatedRecord examplePaddedInput) (by decide)).1,
    (C12_validated_record_invariants exampleService examplePaddedInput
      (validatedRecord examplePaddedInput) (by decide)).2.1⟩

/-- C13: `List` runs its query with the effective limit, which is the limit of
the filter when that is from 1 to 100 and 20 otherwise, and with the effective
offset, which is the offset of the filter when that is not negative and 0
otherwise: when the database answers, `List` returns without error the page of
that limit and offset, whatever the limit and offset of the filter. So every
filter behaves as the filter with the effective values, limit 500 and limit 0
behave as limit 20, limit 100 is kept, offset -5 behaves as offset 0, and no
answer has more than 100 records. -/
theorem C13_List_clamps_paging (r : postgres.SubscriptionRepository) (filter : ListFilter) :
    (r.List filter =
      match r.pool.failure with
      | some err => ([], some (GoError.errorfW "repo ListSubscriptions: %w" err))
      | none =>
        ((postgres.listPage r.pool.subscriptions filter.UserID filter.ServiceName
          (if 1 ≤ filter.Limit ∧ filter.Limit ≤ 100 then filter.Limit else 20).toNat
          (if 0 ≤ filter.Offset then filter.Offset else 0).toNat).map postgres.Row.scan,
          none)) ∧
    (r.pool.failure = none → (r.List filter).2 = none) ∧
    r.List filter =
      r.List { filter with
        Limit := if 1 ≤ filter.Limit ∧ filter.Limit ≤ 100 then filter.Limit else 20
        Offset := if 0 ≤ filter.Offset then filter.Offset else 0 } ∧
    r.List { filter with Limit := 500 } = r.List { filter with Limit := 20 } ∧
    r.List { filter with Limit := 0 } = r.List { filter with Limit := 20 } ∧
    r.List { filter with Offset := -5 } = r.List { filter with Offset := 0 } ∧
    (postgres.effectiveLimit 100 = 100 ∧ ∀ limit, postgres.effectiveLimit limit ≤ 100) ∧
    (r.List filter).1.length ≤ 100 := by
  refine ⟨postgres.List_eq r filter, ?_, ?_, ?_, ?_, ?_, ⟨by decide, fun l =>
    (postgres.effectiveLimit_bounds l).2⟩, ?_⟩
  · intro hp
    rw [postgres.List_eq, hp]
  · rw [postgres.List_eq, postgres.List_eq]
    have h1 := postgres.effectiveLimit_idem filter.Limit
    have h2 := postgres.effectiveOffset_idem filter.Offset
    simp only [postgres.effectiveLimit, postgres.effectiveOffset] at h1 h2 ⊢
    rw [h1, h2]
  · rw [postgres.List_eq, postgres.List_eq]
    rfl
  · rw [postgres.List_eq, postgres.List_eq]
    rfl
  · rw [postgres.List_eq, postgres.List_eq]
    rfl
  · rw [postgres.List_eq]
    have hb := postgres.effectiveLimit_bounds filter.Limit
    cases r.pool.failure with
    | some err => simp
    | none =>
      simp only [List.length_map, postgres.listPage, List.length_take]
      omega

theorem C13_List_clamps_paging_witness :
    postgres.exampleListRepository.pool.failure = none ∧
    (postgres.exampleListRepository.List ⟨none, none, 500, -5⟩).2 = none ∧
    ((postgres.exampleListRepository.List ⟨none, none, 500, -5⟩).1.map fun s => s.CreatedAt.sec) =
      [30, 29, 28, 27, 26, 25, 24, 23, 22, 21, 20, 19, 18, 17, 16, 15, 14, 13, 12, 11] ∧
    ((postgres.exampleListRepository.List ⟨none, none, 3, 2⟩).1.map fun s => s.CreatedAt.sec) =
      [28, 27, 26] ∧
    (postgres.exampleListRepository.List ⟨none, none, 0, 0⟩).1.length = 20 ∧
    (postgres.exampleListRepository.List ⟨none, none, 100, 0⟩).1.length = 30 :=
  ⟨rfl,
    (C13_List_clamps_paging postgres.exampleListRepository ⟨none, none, 500, -5⟩).2.1 rfl,
    by decide, by decide, by decide, by decide⟩

/-- The database refuses the offset -5 and the limit -1 as they are: without
the clamps of `List` the query would fail. -/
theorem listQuery_refuses_negative (rows : List postgres.Row) :
    postgres.listQuery rows none none 20 (-5) =
      Except.error (GoError.library "OFFSET must not be negative") ∧
    postgres.listQuery rows none none (-1) 0 =
      Except.error (GoError.library "LIMIT must not be negative") := by
  exact ⟨rfl, rfl⟩

/-- C14: for every identifier `id` and every input that `validateInput`
accepts with record `sub`, `Update` calls `Repository.Update` once, with `sub`
whose `ID` is replaced by `id`, and returns the record of the repository with no
error, or the zero record with the error of the repository unchanged; for
every input that `validateInput` rejects, `Update` returns the zero record with
the error of the validator and makes no call to the repository. -/
theorem C14_Update_keeps_identity (s : Service) (id : uuid.UUID) (input : SubscriptionInput) :
    (∀ sub, s.validateInput input = (sub, none) →
      (s.Update id input).2.filter Event.isRepoCall = [Event.repoUpdate { sub with ID := id }] ∧
      ({ sub with ID := id } : domain.Subscription).ID = id ∧
      (∀ updated, s.repo.Update { sub with ID := id } = Except.ok updated →
        (s.Update id input).1 = (updated, none)) ∧
      (∀ err, s.repo.Update { sub with ID := id } = Except.error err →
        (s.Update id input).1 = (domain.Subscription.zero, some err))) ∧
    (∀ err, (s.validateInput input).2 = some err →
      s.Update id input = ((domain.Subscription.zero, some err), [])) := by
  constructor
  · intro sub h
    refine ⟨?_, rfl, ?_, ?_⟩
    · simp only [Service.Update, h]
      cases hr : s.repo.Update { sub with ID := id } <;> simp [Event.isRepoCall]
    · intro updated hr
      simp only [Service.Update, h, hr]
    · intro err hr
      simp only [Service.Update, h, hr]
  · intro err h
    obtain ⟨heq, _⟩ := validateInput_error s input err h
    simp only [Service.Update, heq]

theorem C14_Update_keeps_identity_witness :
    exampleService.validateInput exampleInput = (validatedRecord exampleInput, none) ∧
    (exampleService.Update (List.replicate 16 7) exampleInput).1 =
      ({ validatedRecord exampleInput with ID := List.replicate 16 7 }, none) ∧
    ((Service.mk exampleEmptyRepo).Update (List.replicate 16 7) exampleInput).1 =
      (domain.Subscription.zero, some domain.ErrNotFound) ∧
    exampleService.Update (List.replicate 16 7) { exampleInput with Price := 0 } =
      ((domain.Subscription.zero, some errPrice), []) :=
  ⟨by decide,
    ((C14_Update_keeps_identity exampleService (List.replicate 16 7) exampleInput).1
      (validatedRecord exampleInput) (by decide)).2.2.1 _ rfl,
    ((C14_Update_keeps_identity (Service.mk exampleEmptyRepo) (List.replicate 16 7)
      exampleInput).1 (validatedRecord exampleInput) (by decide)).2.2.2 _ rfl,
    (C14_Update_keeps_identity exampleService (List.replicate 16 7)
      { exampleInput with Price := 0 }).2 errPrice (by decide)⟩

/-- C15: `handleError` answers by the classification of the error: 400 for an
error that is or wraps `ErrInvalidArgument`, 409 for `ErrDuplicate`, 404 for
`ErrNotFound`, and for every other error 500 with the message "internal
error", so that two errors without classification get the same response. -/
theorem C15_handleError_maps_classification (h : http.Handler) (err : GoError) :
    (errorsIs err Sentinel.ErrInvalidArgument = true →
      h.handleError err = ⟨400, "application/json", ⟨"invalid argument"⟩⟩) ∧
    (errorsIs err Sentinel.ErrDuplicate = true →
      h.handleError err = ⟨409, "application/json", ⟨"already exists"⟩⟩) ∧
    (errorsIs err Sentinel.ErrNotFound = true →
      h.handleError err = ⟨404, "application/json", ⟨"not found"⟩⟩) ∧
    ((∀ c, errorsIs err c = false) →
      h.handleError err = ⟨500, "application/json", ⟨"internal error"⟩⟩ ∧
      ∀ other : GoError, (∀ c, errorsIs other c = false) →
        h.handleError other = h.handleError err) := by
  refine ⟨?_, ?_, ?_, ?_⟩
  · intro hi
    simp only [http.Handler.handleError, hi, if_true]
    rfl
  · intro hd
    have hi : errorsIs err Sentinel.ErrInvalidArgument = false := by
      cases hx : errorsIs err Sentinel.ErrInvalidArgument with
      | false => rfl
      | true => exact absurd (errorsIs_unique err _ _ hx hd) (by decide)
    simp only [http.Handler.handleError, hi, hd, if_true, Bool.false_eq_true, if_false]
    rfl
  · intro hn
    have hi : errorsIs err Sentinel.ErrInvalidArgument = false := by
      cases hx : errorsIs err Sentinel.ErrInvalidArgument with
      | false => rfl
      | true => exact absurd (errorsIs_unique err _ _ hx hn) (by decide)
    have hd : errorsIs err Sentinel.ErrDuplicate = false := by
      cases hx : errorsIs err Sentinel.ErrDuplicate with
      | false => rfl
      | true => exact absurd (errorsIs_unique err _ _ hx hn) (by decide)
    simp only [http.Handler.handleError, hi, hd, hn, if_true, Bool.false_eq_true, if_false]
    rfl
  · intro hnone
    have key : ∀ e : GoError, (∀ c, errorsIs e c = false) →
        h.handleError e = ⟨500, "application/json", ⟨"internal error"⟩⟩ := by
      intro e he
      simp only [http.Handler.handleError, he, Bool.false_eq_true, if_false]
      rfl
    exact ⟨key err hnone, fun other ho => (key other ho).trans (key err hnone).symm⟩

theorem C15_handleError_maps_classification_witness :
    errorsIs errPrice Sentinel.ErrInvalidArgument = true ∧
    (http.Handler.mk exampleService).handleError errPrice =
      ⟨400, "application/json", ⟨"invalid argument"⟩⟩ ∧
    (http.Handler.mk exampleService).handleError domain.ErrDuplicate =
      ⟨409, "application/json", ⟨"already exists"⟩⟩ ∧
    (http.Handler.mk exampleService).handleError domain.ErrNotFound =
      ⟨404, "application/json", ⟨"not found"⟩⟩ ∧
    (∀ c, errorsIs (GoError.errorfW "repo GetSubscription: %w"
      (GoError.library "connection refused")) c = false) ∧
    (http.Handler.mk exampleService).handleError (GoError.errorfW "repo GetSubscription: %w"
      (GoError.library "connection refused")) =
      ⟨500, "application/json", ⟨"internal error"⟩⟩ :=
  ⟨by decide,
    (C15_handleError_maps_classification (http.Handler.mk exampleService) errPrice).1 (by decide),
    (C15_handleError_maps_classification (http.Handler.mk exampleService)
      domain.ErrDuplicate).2.1 (by decide),
    (C15_handleError_maps_classification (http.Handler.mk exampleService)
      domain.ErrNotFound).2.2.1 (by decide),
    fun _ => rfl,
    ((C15_handleError_maps_classification (http.Handler.mk exampleService)
      (GoError.errorfW "repo GetSubscription: %w" (GoError.library "connection refused"))).2.2.2
      (fun _ => rfl)).1⟩

/-- C16: for every input that `validateInput` accepts once its end date is
removed, an end date that is absent, empty or made of white space only gives
the same success, with no end date in the record; an end date that is a valid
month with white space before or after it (its trimmed form is a valid month
and differs from it) is rejected, with the error of `ParseMonthDate` on the
untrimmed text, classified `ErrInvalidArgument`. -/
theorem C16_end_date_parsed_untrimmed (s : Service) (input : SubscriptionInput)
    (sub : domain.Subscription)
    (hvalid : s.validateInput { input with EndDate := none } = (sub, none)) :
    ((input.EndDate = none ∨ ∃ e, input.EndDate = some e ∧ strings.TrimSpace e = []) →
      s.validateInput input = (sub, none) ∧ sub.EndDate = none) ∧
    (∀ e, input.EndDate = some e → (ParseMonthDate (strings.TrimSpace e)).2 = none →
      e ≠ strings.TrimSpace e →
      ∃ err, (ParseMonthDate e).2 = some err ∧
        s.validateInput input = (domain.Subscription.zero, some (errDate err)) ∧
        errorsIs (errDate err) Sentinel.ErrInvalidArgument = true) := by
  rw [validateInput_eq] at hvalid
  have hp0 : endProvided { input with EndDate := none } = none := rfl
  have hff : firstFailure (checksInOrder { input with EndDate := none }) = none := by
    cases hf : firstFailure (checksInOrder { input with EndDate := none }) with
    | none => rfl
    | some err => rw [hf] at hvalid; cases hvalid
  rw [hff] at hvalid
  simp only [Prod.mk.injEq, and_true] at hvalid
  simp only [firstFailure, checksInOrder, List.findSome?, id, checkEndDate,
    checkEndNotBeforeStart, hp0, Option.bind] at hff
  have c1 : checkServiceName input = none := by
    cases h : checkServiceName input with
    | none => rfl
    | some x =>
      have h' : checkServiceName { input with EndDate := none } = some x := h
      simp [h'] at hff
  have c2 : checkPrice input = none := by
    cases h : checkPrice input with
    | none => rfl
    | some x =>
      have h1 : checkServiceName { input with EndDate := none } = none := c1
      have h' : checkPrice { input with EndDate := none } = some x := h
      simp [h1, h'] at hff
  have c3 : checkUserID input = none := by
    cases h : checkUserID input with
    | none => rfl
    | some x =>
      have h1 : checkServiceName { input with EndDate := none } = none := c1
      have h2 : checkPrice { input with EndDate := none } = none := c2
      have h' : checkUserID { input with EndDate := none } = some x := h
      simp [h1, h2, h'] at hff
  have c4 : checkStartDate input = none := by
    cases h : checkStartDate input with
    | none => rfl
    | some x =>
      have h1 : checkServiceName { input with EndDate := none } = none := c1
      have h2 : checkPrice { input with EndDate := none } = none := c2
      have h3 : checkUserID { input with EndDate := none } = none := c3
      have h' : checkStartDate { input with EndDate := none } = some x := h
      simp [h1, h2, h3, h'] at hff
  have c7 : checkUserIDNotNil input = none := by
    cases h : checkUserIDNotNil input with
    | none => rfl
    | some x =>
      have h1 : checkServiceName { input with EndDate := none } = none := c1
      have h2 : checkPrice { input with EndDate := none } = none := c2
      have h3 : checkUserID { input with EndDate := none } = none := c3
      have h4 : checkStartDate { input with EndDate := none } = none := c4
      have h' : checkUserIDNotNil { input with EndDate := none } = some x := h
      simp [h1, h2, h3, h4, h'] at hff
  have c8 : checkStartNotZero input = none := by
    cases h : checkStartNotZero input with
    | none => rfl
    | some x =>
      have h1 : checkServiceName { input with EndDate := none } = none := c1
      have h2 : checkPrice { input with EndDate := none } = none := c2
      have h3 : checkUserID { input with EndDate := none } = none := c3
      have h4 : checkStartDate { input with EndDate := none } = none := c4
      have h7 : checkUserIDNotNil { input with EndDate := none } = none := c7
      have h' : checkStartNotZero { input with EndDate := none } = some x := h
      simp [h1, h2, h3, h4, h7, h'] at hff
  constructor
  · intro hend
    have hp : endProvided input = none := by
      rcases hend with h | ⟨e, h, hb⟩
      · simp [endProvided, h, Option.filter]
      · simp [endProvided, h, Option.filter, hb]
    have hrec : validatedRecord input = validatedRecord { input with EndDate := none } := by
      simp only [validatedRecord, hp, hp0]
    rw [validateInput_eq]
    have : firstFailure (checksInOrder input) = none := by
      simp [firstFailure, checksInOrder, c1, c2, c3, c4, c7, c8, checkEndDate,
        checkEndNotBeforeStart, hp]
    rw [this, hrec, hvalid]
    refine ⟨rfl, ?_⟩
    rw [← hvalid]
    simp [validatedRecord, hp0]
  · intro e he hm hne
    have hmt := ParseMonthDate_shape _ hm
    have hne' : strings.TrimSpace e ≠ [] := by
      obtain ⟨m1, m2, y1, y2, y3, y4, hx, _⟩ := hmt
      rw [hx]
      simp
    have hnot : ¬ IsMonthText e := by
      intro hme
      apply hne
      obtain ⟨m1, m2, y1, y2, y3, y4, rfl, hm1, hm2, hy1, hy2, hy3, hy4, h1, h2⟩ := hme
      have := strings.TrimSpace_digits m1 y4 [m2, 45, y1, y2, y3] hm1 hy4
      simp only [List.cons_append, List.nil_append] at this
      exact this.symm
    have hp : endProvided input = some e := by
      simp [endProvided, he, Option.filter, hne']
    cases hpe : (ParseMonthDate e).2 with
    | none => exact absurd (ParseMonthDate_shape _ hpe) hnot
    | some err =>
      refine ⟨err, rfl, ?_, rfl⟩
      rw [validateInput_eq]
      have : firstFailure (checksInOrder input) = some (errDate err) := by
        simp [firstFailure, checksInOrder, c1, c2, c3, c4, checkEndDate, hp, hpe]
      rw [this]

theorem C16_end_date_parsed_untrimmed_witness :
    exampleService.validateInput { exampleInput with EndDate := none } =
      (validatedRecord exampleInput, none) ∧
    (exampleService.validateInput { exampleInput with EndDate := some (str "  ") } =
        (validatedRecord exampleInput, none) ∧
      (validatedRecord exampleInput).EndDate = none) ∧
    (ParseMonthDate (strings.TrimSpace (str " 07-2025 "))).2 = none ∧
    str " 07-2025 " ≠ strings.TrimSpace (str " 07-2025 ") ∧
    (∃ err, (ParseMonthDate (str " 07-2025 ")).2 = some err ∧
      exampleService.validateInput { exampleInput with EndDate := some (str " 07-2025 ") } =
        (domain.Subscription.zero, some (errDate err)) ∧
      errorsIs (errDate err) Sentinel.ErrInvalidArgument = true) :=
  ⟨by decide,
    (C16_end_date_parsed_untrimmed exampleService
      { exampleInput with EndDate := some (str "  ") } (validatedRecord exampleInput)
      (by decide)).1 (Or.inr ⟨str "  ", rfl, by decide⟩),
    by decide, by decide,
    (C16_end_date_parsed_untrimmed exampleService
      { exampleInput with EndDate := some (str " 07-2025 ") } (validatedRecord exampleInput)
      (by decide)).2 (str " 07-2025 ") rfl (by decide) (by decide)⟩
